import Mathlib

/-!
# Verification of the redstone circuit simulator core engine

This file is a shallow embedding, in Lean 4, of the circuit engine of the
redstone circuit designer (the `RedstoneSimulator` class, its component
classes, the tick scheduler and the piston motion algorithm), together with
theorems settling the specification claims about it.

Conventions of the embedding:
* JavaScript objects holding the entity components become Lean structures;
  fields that JavaScript leaves `undefined` (hence falsy) are modelled by
  their falsy default (`false`, `0`).
* The `EntityManager`'s insertion-ordered `Map` becomes an association list
  `List (Int × Entity)`; `Map.delete` becomes a filter, `getBlockEntity`'s
  linear `find` becomes `List.find?`.
* The unbounded depth-first `notifyNeighbors` recursion is given an explicit
  fuel parameter; every theorem about a cascade holds for every fuel value,
  and concrete executions use a fuel that the run never exhausts.
* Dynamic dispatch on the component class becomes a match on a `CKind` tag.
-/

namespace Redstone

/-- `Direction.toVector`, projected to the 2D grid: N, E, S, W are the four
cardinals; Up/Down (4, 5) only move along z, so their x/y projection is zero,
as is the default branch. -/
def dirVec (d : Nat) : Int × Int :=
  if d = 0 then (0, -1)
  else if d = 1 then (1, 0)
  else if d = 2 then (0, 1)
  else if d = 3 then (-1, 0)
  else (0, 0)

/-- `Direction.opposite`. -/
def dirOpp (d : Nat) : Nat :=
  if d = 0 then 2
  else if d = 1 then 3
  else if d = 2 then 0
  else if d = 3 then 1
  else if d = 4 then 5
  else if d = 5 then 4
  else d

/-- The component classes of the simulator (`RedstoneDustComponent`,
`RedstoneTorchComponent`, ..., `StoneComponent`); the dynamic dispatch of the
source becomes a match on this tag.  The sticky piston is a `piston` whose
`isSticky` field is true, mirroring `StickyPistonComponent extends
PistonComponent`. -/
inductive CKind where
  | dust
  | torch
  | lever
  | button
  | repeater
  | comparator
  | observer
  | piston
  | pistonHead
  | redstoneBlock
  | stone
  deriving DecidableEq, Repr

/-- The mutable state of a redstone component object.  One record holds the
union of the fields of all component classes (a JavaScript object carries
exactly the fields its constructor assigned; the unused fields of other kinds
keep their construction defaults and are never read). -/
structure RComp where
  kind : CKind
  powerLevel : Int
  delay : Nat
  locked : Bool
  powered : Bool
  mode : String
  outputPower : Int
  extended : Bool
  isSticky : Bool
  headId : Int
  sourcePistonId : Int
  deriving DecidableEq, Repr

/-- Constructor defaults shared by all component classes
(`RedstoneComponent`'s `powerLevel = 0` plus each subclass's own fields). -/
def baseComp (k : CKind) : RComp :=
  ⟨k, 0, 1, false, false, "compare", 0, false, false, -1, -1⟩

/-- The `blockState` component attached to every entity; `waterlogged` is
never read by the engine, `extended` and `sticky` start absent (falsy) in the
source and are modelled as `false`. -/
structure BState where
  type : String
  rotation : Nat
  powered : Bool
  powerLevel : Int
  waterlogged : Bool
  extended : Bool
  sticky : Bool
  deriving DecidableEq, Repr

/-- The initial `blockState` record created by `createEntity`. -/
def mkBState (ty : String) : BState :=
  ⟨ty, 0, false, 0, false, false, false⟩

/-- Grid position component (`{x, y, z: 0}`; z is constant and dropped). -/
structure BlockPos where
  x : Int
  y : Int
  deriving DecidableEq, Repr

/-- One entity of the `EntityManager`: its position component, its optional
redstone logic component and its `blockState`.  Every entity made by
`createEntity` has a position and a `blockState`; the redstone component
exists only for registered kinds. -/
structure Entity where
  pos : BlockPos
  redstone : Option RComp
  bs : BState
  deriving DecidableEq, Repr

/-- `EntityManager`: insertion-ordered id-keyed map, as an association
list, plus the monotone id counter. -/
structure EManager where
  nextId : Int
  entities : List (Int × Entity)
  deriving DecidableEq, Repr

/-- An entry of the scheduler's `nextTickList`: `{x, y, time, priority}`. -/
structure TickEntry where
  x : Int
  y : Int
  time : Nat
  priority : Nat
  deriving DecidableEq, Repr

/-- The `RedstoneSimulator` state. -/
structure Sim where
  width : Nat
  height : Nat
  em : EManager
  tickCount : Nat
  nextTickList : List TickEntry
  deriving DecidableEq, Repr

/-- A fresh simulator (`new RedstoneSimulator(64, 48)`). -/
def emptySim : Sim :=
  ⟨64, 48, ⟨1, []⟩, 0, []⟩

/-- `initComponentRegistry`: the twelve registered `minecraft:` identifiers
and the component class each constructs.  Identifiers that appear at the
external boundary but are never registered (such as `minecraft:obsidian` and
`minecraft:bedrock`) yield `none`. -/
def registryComp (ty : String) : Option RComp :=
  if ty = "minecraft:redstone_dust" then some (baseComp CKind.dust)
  else if ty = "minecraft:redstone_torch" then some (baseComp CKind.torch)
  else if ty = "minecraft:lever" then some (baseComp CKind.lever)
  else if ty = "minecraft:button" then some (baseComp CKind.button)
  else if ty = "minecraft:repeater" then some (baseComp CKind.repeater)
  else if ty = "minecraft:comparator" then some (baseComp CKind.comparator)
  else if ty = "minecraft:observer" then some (baseComp CKind.observer)
  else if ty = "minecraft:piston" then some (baseComp CKind.piston)
  else if ty = "minecraft:sticky_piston" then
    some { baseComp CKind.piston with isSticky := true }
  else if ty = "minecraft:piston_head" then some (baseComp CKind.pistonHead)
  else if ty = "minecraft:redstone_block" then
    some { baseComp CKind.redstoneBlock with powerLevel := 15 }
  else if ty = "minecraft:stone" then some (baseComp CKind.stone)
  else none

/-- `getBlockEntity(x, y)`: linear scan over the entities in insertion
order, returning the first whose position component matches. -/
def getBlockEntity (s : Sim) (x y : Int) : Option (Int × Entity) :=
  s.em.entities.find? (fun pe => pe.2.pos.x == x && pe.2.pos.y == y)

/-- Rewrite the first entry of the association list satisfying `p`, leaving
its id untouched (mutation of a found JavaScript object). -/
def modFirst (p : Int × Entity → Bool) (g : Entity → Entity) :
    List (Int × Entity) → List (Int × Entity)
  | [] => []
  | h :: t => if p h then (h.1, g h.2) :: t else h :: modFirst p g t

/-- Replace the entity list of a simulator. -/
def withEntities (s : Sim) (l : List (Int × Entity)) : Sim :=
  { s with em := { s.em with entities := l } }

/-- Mutate (through the id, i.e. the captured `this` object) the redstone
component of entity `i`. -/
def setCompById (s : Sim) (i : Int) (g : RComp → RComp) : Sim :=
  withEntities s (modFirst (fun pe => pe.1 == i)
    (fun e => { e with redstone := e.redstone.map g }) s.em.entities)

/-- Mutate the `blockState` of entity `i` (used where the source holds the
entity record itself). -/
def setBSById (s : Sim) (i : Int) (g : BState → BState) : Sim :=
  withEntities s (modFirst (fun pe => pe.1 == i)
    (fun e => { e with bs := g e.bs }) s.em.entities)

/-- Mutate the position component of entity `i` (piston motion). -/
def setPosById (s : Sim) (i : Int) (nx ny : Int) : Sim :=
  withEntities s (modFirst (fun pe => pe.1 == i)
    (fun e => { e with pos := ⟨nx, ny⟩ }) s.em.entities)

/-- `RedstoneComponent.updateBlockState`: look the entity up by position and
`Object.assign` onto its `blockState`; a miss is a no-op. -/
def updateBlockStateAt (s : Sim) (x y : Int) (g : BState → BState) : Sim :=
  withEntities s (modFirst (fun pe => pe.2.pos.x == x && pe.2.pos.y == y)
    (fun e => { e with bs := g e.bs }) s.em.entities)

/-- `EntityManager.removeEntity`. -/
def removeEntityById (s : Sim) (i : Int) : Sim :=
  withEntities s (s.em.entities.filter (fun pe => !(pe.1 == i)))

/-- `scheduleBlockUpdate(x, y, delay, priority = 0)`: push an entry due at
`tickCount + delay` onto `nextTickList`. -/
def scheduleBlockUpdate (s : Sim) (x y : Int) (delay : Nat) : Sim :=
  { s with nextTickList := s.nextTickList ++ [⟨x, y, s.tickCount + delay, 0⟩] }

/-- Rotation read through `getBlockEntity(x, y).components.get('blockState')`
(the source only performs this read where the entity is known to exist; the
default covers the unreachable miss). -/
def rotOf (s : Sim) (x y : Int) : Nat :=
  match getBlockEntity s x y with
  | none => 0
  | some (_, e) => e.bs.rotation

/-- `RedstoneTorchComponent`'s rotation-to-attachment table (a torch facing
north leans away from, i.e. is attached to, the south block, and so on). -/
def torchAttachDir (r : Nat) : Nat :=
  if r = 0 then 2
  else if r = 1 then 3
  else if r = 2 then 0
  else if r = 3 then 1
  else 2

/-- `getPowerOutput(simulator, x, y, toDirection)` of each component class:
power the component at `(x, y)` (whose state is `c`) emits toward
`toDirection`. -/
def getPowerOutput (s : Sim) (c : RComp) (x y : Int) (toDir : Nat) : Int :=
  match c.kind with
  | CKind.dust => c.powerLevel
  | CKind.torch =>
      if toDir = torchAttachDir (rotOf s x y) then 0 else c.powerLevel
  | CKind.lever => c.powerLevel
  | CKind.button => c.powerLevel
  | CKind.repeater => if toDir = rotOf s x y then c.powerLevel else 0
  | CKind.comparator => if toDir = rotOf s x y then c.outputPower else 0
  | CKind.observer =>
      if toDir = (rotOf s x y + 2) % 4 then c.powerLevel else 0
  | CKind.redstoneBlock => 15
  | CKind.piston => 0
  | CKind.pistonHead => 0
  | CKind.stone => 0

/-- `getPower(x, y, fromDirection)`: ask the block one step toward
`fromDirection` for its output toward the opposite direction; 0 when the cell
is empty or its occupant has no redstone component. -/
def getPower (s : Sim) (x y : Int) (fromDir : Nat) : Int :=
  let v := dirVec fromDir
  match getBlockEntity s (x + v.1) (y + v.2) with
  | none => 0
  | some (_, e) =>
    match e.redstone with
    | none => 0
    | some c => getPowerOutput s c (x + v.1) (y + v.2) (dirOpp fromDir)

/-- `getMaxNeighborPower(x, y)`: fold of `Math.max` over N, E, S, W. -/
def getMaxNeighborPower (s : Sim) (x y : Int) : Int :=
  max (max (max (max 0 (getPower s x y 0)) (getPower s x y 1))
    (getPower s x y 2)) (getPower s x y 3)

/-- `checkQuasiConnectivity`: the hook exists but is stubbed to false. -/
def checkQuasiConnectivity (_s : Sim) (_x _y : Int) : Bool :=
  false

/-- The new power level a `RedstoneDustComponent` computes in
`onNeighborUpdate`: `Math.max`-fold over the four cardinal neighbors, a dust
neighbor contributing `powerLevel - 1` and any other redstone component its
`getPowerOutput` toward the wire. -/
def wireStep (s : Sim) (x y : Int) (acc : Int) (d : Nat) : Int :=
  let v := dirVec d
  match getBlockEntity s (x + v.1) (y + v.2) with
  | none => acc
  | some (_, e) =>
    match e.redstone with
    | none => acc
    | some c =>
      if c.kind = CKind.dust then max acc (c.powerLevel - 1)
      else max acc (getPowerOutput s c (x + v.1) (y + v.2) (dirOpp d))

/-- The full fold of `wireStep` in cardinal order starting from 0. -/
def wireComputedLevel (s : Sim) (x y : Int) : Int :=
  wireStep s x y (wireStep s x y (wireStep s x y (wireStep s x y 0 0) 1) 2) 3

/-- `RepeaterComponent.getRepeaterInput`: power arriving from `fromDir`, but
only when the source component is a repeater or a comparator (only those can
lock a repeater). -/
def getRepeaterInput (s : Sim) (x y : Int) (fromDir : Nat) : Int :=
  let v := dirVec fromDir
  match getBlockEntity s (x + v.1) (y + v.2) with
  | none => 0
  | some (_, e) =>
    match e.redstone with
    | none => 0
    | some c =>
      if c.kind = CKind.repeater ∨ c.kind = CKind.comparator then
        getPowerOutput s c (x + v.1) (y + v.2) (dirOpp fromDir)
      else 0

/-- `RepeaterComponent.onNeighborUpdate` for the component `c` of entity
`i` at `(x, y)`: recompute the lock from the side inputs, store it, and (when
unlocked) schedule a transition `delay * 2` ticks ahead iff the desired
powered state differs from the current one. -/
def repeaterNU (s : Sim) (i : Int) (c : RComp) (x y : Int) : Sim :=
  let rot := rotOf s x y
  let pl := getRepeaterInput s x y ((rot + 3) % 4)
  let pr := getRepeaterInput s x y ((rot + 1) % 4)
  let lk : Bool := decide (0 < pl) || decide (0 < pr)
  let s1 := setCompById s i (fun cc => { cc with locked := lk })
  if lk then s1
  else
    let ip := getPower s1 x y ((rot + 2) % 4)
    let want : Bool := decide (0 < ip)
    if want = c.powered then s1
    else scheduleBlockUpdate s1 x y (c.delay * 2)

/-- `ObserverComponent.onNeighborUpdate`: schedule a pulse iff the update
came from the face cell. -/
def observerNU (s : Sim) (x y fx fy : Int) : Sim :=
  let rot := rotOf s x y
  let v := dirVec rot
  if fx = x + v.1 ∧ fy = y + v.2 then scheduleBlockUpdate s x y 2 else s

/-- `PistonComponent.onNeighborUpdate`: schedule a transition iff the desired
extension state (max neighbor power, or the stubbed quasi-connectivity)
differs from the current one. -/
def pistonNU (s : Sim) (c : RComp) (x y : Int) : Sim :=
  let mp := getMaxNeighborPower s x y
  let should : Bool := decide (0 < mp) || checkQuasiConnectivity s x y
  if should = c.extended then s else scheduleBlockUpdate s x y 2

/-- Movability test of `canPush`/`doPull`: obsidian, bedrock, any piston
head, and any extended piston are immovable, decided on the `blockState`
`type` string. -/
def isImmovableBS (b : BState) : Bool :=
  b.type == "minecraft:obsidian" || b.type == "minecraft:bedrock" ||
  b.type == "minecraft:piston_head" ||
  ((b.type == "minecraft:piston" || b.type == "minecraft:sticky_piston") &&
    b.extended)

/-- The walk of `PistonComponent.canPush`: `n` is `12 - count`, the number of
movable blocks the walk may still traverse; an empty cell succeeds, an
immovable block fails, and running out of budget (the 12th movable block)
fails. -/
def canPushAux (s : Sim) (vx vy : Int) : Nat → Int → Int → Bool
  | 0, _, _ => false
  | Nat.succ n, cx, cy =>
    match getBlockEntity s cx cy with
    | none => true
    | some (_, e) =>
      if isImmovableBS e.bs then false
      else canPushAux s vx vy n (cx + vx) (cy + vy)

/-- `PistonComponent.canPush(simulator, x, y, direction)`. -/
def canPush (s : Sim) (x y : Int) (dir : Nat) : Bool :=
  let v := dirVec dir
  canPushAux s v.1 v.2 12 (x + v.1) (y + v.2)

/-- The first stack-collection loop of `doPush`: contiguous run of occupied
cells in front of the piston, each recorded with its id and position.  The
source's `while (true)` terminates because only finitely many cells are
occupied; the fuel is instantiated with one more than the entity count, which
that argument shows is never exhausted. -/
def collectStack (s : Sim) (vx vy : Int) : Nat → Int → Int → List (Int × Int × Int)
  | 0, _, _ => []
  | Nat.succ n, cx, cy =>
    match getBlockEntity s cx cy with
    | none => []
    | some (ii, _) => (ii, cx, cy) :: collectStack s vx vy n (cx + vx) (cy + vy)

/-- `onNeighborUpdate` dispatched at a position: look up the first entity at
`(x, y)`, and run its component's handler; `(fx, fy)` is the updating
neighbor.  The depth-first recursion of the dust cascade consumes one unit of
fuel per dispatch; exhausted fuel leaves the state unchanged (the source
recursion is unbounded, and every theorem below is fuel-generic). -/
def onNeighborPos : Nat → Sim → Int → Int → Int → Int → Sim
  | 0, s, _, _, _, _ => s
  | Nat.succ f, s, x, y, fx, fy =>
    match getBlockEntity s x y with
    | none => s
    | some (i, e) =>
      match e.redstone with
      | none => s
      | some c =>
        match c.kind with
        | CKind.dust =>
          let lvl := wireComputedLevel s x y
          if lvl = c.powerLevel then s
          else
            let s1 := setCompById s i (fun cc => { cc with powerLevel := lvl })
            let s2 := updateBlockStateAt s1 x y (fun b => { b with powerLevel := lvl })
            onNeighborPos f (onNeighborPos f (onNeighborPos f
              (onNeighborPos f s2 x (y - 1) x y) (x + 1) y x y) x (y + 1) x y)
              (x - 1) y x y
        | CKind.torch => scheduleBlockUpdate s x y 2
        | CKind.repeater => repeaterNU s i c x y
        | CKind.comparator => scheduleBlockUpdate s x y 0
        | CKind.observer => observerNU s x y fx fy
        | CKind.piston => pistonNU s c x y
        | _ => s

/-- `notifyNeighbors(x, y)`: depth-first `onNeighborUpdate` on the N, E, S, W
neighbors in that order. -/
def notifyNeighbors (f : Nat) (s : Sim) (x y : Int) : Sim :=
  onNeighborPos f (onNeighborPos f (onNeighborPos f
    (onNeighborPos f s x (y - 1) x y) (x + 1) y x y) x (y + 1) x y)
    (x - 1) y x y

/-- `onNeighborUpdate` dispatched on a known component object (entity `i`
holding component `c`), as when the source calls it through a captured
reference rather than a position lookup. -/
def onNeighborComp (f : Nat) (s : Sim) (i : Int) (c : RComp)
    (x y fx fy : Int) : Sim :=
  match c.kind with
  | CKind.dust =>
    let lvl := wireComputedLevel s x y
    if lvl = c.powerLevel then s
    else
      let s1 := setCompById s i (fun cc => { cc with powerLevel := lvl })
      let s2 := updateBlockStateAt s1 x y (fun b => { b with powerLevel := lvl })
      notifyNeighbors f s2 x y
  | CKind.torch => scheduleBlockUpdate s x y 2
  | CKind.repeater => repeaterNU s i c x y
  | CKind.comparator => scheduleBlockUpdate s x y 0
  | CKind.observer => observerNU s x y fx fy
  | CKind.piston => pistonNU s c x y
  | _ => s

/-- `onPlaced` of a freshly constructed component: the torch overrides it to
schedule its initial check; every other class inherits the base
implementation, which forwards to the component's own `onNeighborUpdate` with
the block's own cell as the updating neighbor. -/
def onPlacedComp (f : Nat) (s : Sim) (i : Int) (c : RComp) (x y : Int) : Sim :=
  match c.kind with
  | CKind.torch => scheduleBlockUpdate s x y 2
  | _ => onNeighborComp f s i c x y x y

/-- `RedstoneSimulator.createEntity(type, x, y)`: allocate the next id,
attach position, the registered redstone component (if any) and a default
`blockState`, then invoke `onPlaced` on the new component.  Returns the new
state and the allocated id. -/
def createEntity (f : Nat) (ty : String) (x y : Int) (s : Sim) : Sim × Int :=
  let i := s.em.nextId
  let ent : Entity := ⟨⟨x, y⟩, registryComp ty, mkBState ty⟩
  let s1 : Sim := { s with em := ⟨i + 1, s.em.entities ++ [(i, ent)]⟩ }
  match registryComp ty with
  | none => (s1, i)
  | some c => (onPlacedComp f s1 i c x y, i)

/-- The second loop of `doPush`: move the collected stack one cell along the
push vector from tail to head, notifying at the vacated and the target cell
of each move. -/
def doPushMoves (f : Nat) (vx vy : Int) : Sim → List (Int × Int × Int) → Sim
  | s, [] => s
  | s, (ii, ix, iy) :: t =>
    let s1 := setPosById s ii (ix + vx) (iy + vy)
    let s2 := notifyNeighbors f s1 ix iy
    let s3 := notifyNeighbors f s2 (ix + vx) (iy + vy)
    doPushMoves f vx vy s3 t

/-- `PistonComponent.doPush(simulator, x, y, direction)`. -/
def doPush (f : Nat) (s : Sim) (x y : Int) (dir : Nat) : Sim :=
  let v := dirVec dir
  let stack := collectStack s v.1 v.2 (s.em.entities.length + 1) (x + v.1) (y + v.2)
  doPushMoves f v.1 v.2 s stack.reverse

/-- `PistonComponent.doPull(simulator, x, y, direction)`: the sticky retract
pull of the single block two cells ahead, refused for immovable blocks. -/
def doPull (f : Nat) (s : Sim) (x y : Int) (dir : Nat) : Sim :=
  let v := dirVec dir
  let tx := x + v.1 * 2
  let ty := y + v.2 * 2
  match getBlockEntity s tx ty with
  | none => s
  | some (bi, be) =>
    if isImmovableBS be.bs then s
    else
      let s1 := setPosById s bi (x + v.1) (y + v.2)
      let s2 := notifyNeighbors f s1 tx ty
      notifyNeighbors f s2 (x + v.1) (y + v.2)

/-- `PistonComponent.extend(simulator, x, y)` for the piston component `c` of
entity `i`: on a successful `canPush`, push the stack, mark the piston
extended, create and link the `piston_head` entity in front, and notify
around the head cell; on failure, do nothing. -/
def pistonExtend (f : Nat) (s : Sim) (i : Int) (c : RComp) (x y : Int) : Sim :=
  if c.extended then s
  else
    let rot := rotOf s x y
    let v := dirVec rot
    if canPush s x y rot then
      let s1 := doPush f s x y rot
      let s2 := setCompById s1 i (fun cc => { cc with extended := true })
      let s3 := updateBlockStateAt s2 x y (fun b => { b with extended := true })
      let s4 :=
        match getBlockEntity s3 (x + v.1) (y + v.2) with
        | some (i2, _) => removeEntityById s3 i2
        | none => s3
      let pr := createEntity f "minecraft:piston_head" (x + v.1) (y + v.2) s4
      let s6 := setCompById pr.1 pr.2
        (fun cc => { cc with sourcePistonId := i, isSticky := c.isSticky })
      let s7 := setBSById s6 pr.2
        (fun b => { b with rotation := rot, sticky := c.isSticky })
      let s8 := setCompById s7 i (fun cc => { cc with headId := pr.2 })
      notifyNeighbors f s8 (x + v.1) (y + v.2)
    else s

/-- `PistonComponent.retract(simulator, x, y)`: clear the extended flag,
remove and unlink the head entity, notify at the vacated head cell, and (for
a sticky piston) pull the block behind the head. -/
def pistonRetract (f : Nat) (s : Sim) (i : Int) (c : RComp) (x y : Int) : Sim :=
  if c.extended then
    let rot := rotOf s x y
    let v := dirVec rot
    let s1 := setCompById s i (fun cc => { cc with extended := false })
    let s2 := updateBlockStateAt s1 x y (fun b => { b with extended := false })
    let s3 :=
      if c.headId = -1 then s2
      else
        let sA := removeEntityById s2 c.headId
        let sB := setCompById sA i (fun cc => { cc with headId := -1 })
        notifyNeighbors f sB (x + v.1) (y + v.2)
    if c.isSticky then doPull f s3 x y rot else s3
  else s

/-- `onScheduledTick` dispatched on the component `c` of entity `i` at
`(x, y)` (the base classes without an override do nothing). -/
def onScheduledTickComp (f : Nat) (s : Sim) (i : Int) (c : RComp)
    (x y : Int) : Sim :=
  match c.kind with
  | CKind.torch =>
    let attach := torchAttachDir (rotOf s x y)
    let ip := getPower s x y attach
    let shouldBeOff : Bool := decide (0 < ip)
    let isOff : Bool := decide (c.powerLevel = 0)
    if shouldBeOff && !isOff then
      let s1 := setCompById s i (fun cc => { cc with powerLevel := 0 })
      let s2 := updateBlockStateAt s1 x y
        (fun b => { b with type := "minecraft:redstone_torch_off" })
      notifyNeighbors f s2 x y
    else if !shouldBeOff && isOff then
      let s1 := setCompById s i (fun cc => { cc with powerLevel := 15 })
      let s2 := updateBlockStateAt s1 x y
        (fun b => { b with type := "minecraft:redstone_torch" })
      notifyNeighbors f s2 x y
    else s
  | CKind.button =>
    let s1 := setCompById s i (fun cc => { cc with powerLevel := 0 })
    let s2 := updateBlockStateAt s1 x y (fun b => { b with powered := false })
    notifyNeighbors f s2 x y
  | CKind.repeater =>
    if c.locked then s
    else
      let rot := rotOf s x y
      let ip := getPower s x y ((rot + 2) % 4)
      let want : Bool := decide (0 < ip)
      let s1 := setCompById s i (fun cc =>
        { cc with powered := want, powerLevel := if want then 15 else 0 })
      let s2 := updateBlockStateAt s1 x y (fun b =>
        { b with
          type := if want then "minecraft:repeater_on" else "minecraft:repeater",
          powered := want })
      notifyNeighbors f s2 x y
  | CKind.comparator =>
    let rot := rotOf s x y
    let rearPower := getPower s x y ((rot + 2) % 4)
    let sidePower := max (getPower s x y ((rot + 3) % 4))
      (getPower s x y ((rot + 1) % 4))
    let newPower : Int :=
      if c.mode = "subtract" then max 0 (rearPower - sidePower)
      else if rearPower ≥ sidePower then rearPower else 0
    if c.outputPower = newPower then s
    else
      let s1 := setCompById s i (fun cc =>
        { cc with outputPower := newPower, powerLevel := newPower })
      let s2 := updateBlockStateAt s1 x y (fun b =>
        { b with
          type := if 0 < newPower then "minecraft:comparator_on"
            else "minecraft:comparator",
          powerLevel := newPower })
      notifyNeighbors f s2 x y
  | CKind.observer =>
    if c.powerLevel = 0 then
      let s1 := setCompById s i (fun cc => { cc with powerLevel := 15 })
      let s2 := updateBlockStateAt s1 x y
        (fun b => { b with type := "minecraft:observer_on" })
      let s3 := notifyNeighbors f s2 x y
      scheduleBlockUpdate s3 x y 2
    else
      let s1 := setCompById s i (fun cc => { cc with powerLevel := 0 })
      let s2 := updateBlockStateAt s1 x y
        (fun b => { b with type := "minecraft:observer" })
      notifyNeighbors f s2 x y
  | CKind.piston =>
    let mp := getMaxNeighborPower s x y
    let should : Bool := decide (0 < mp)
    if should && !c.extended then pistonExtend f s i c x y
    else if !should && c.extended then pistonRetract f s i c x y
    else s
  | _ => s

/-- Firing one due entry in `processScheduledTicks`: look the cell up; an
empty cell, or an occupant without a redstone component, drops the entry
silently, otherwise the occupant's `onScheduledTick` runs. -/
def fireEntry (f : Nat) (s : Sim) (t : TickEntry) : Sim :=
  match getBlockEntity s t.x t.y with
  | none => s
  | some (i, e) =>
    match e.redstone with
    | none => s
    | some c => onScheduledTickComp f s i c t.x t.y

/-- `processScheduledTicks`: split the queue by dueness against the current
clock, keep the rest, and fire the due entries in insertion order. -/
def processScheduledTicks (f : Nat) (s : Sim) : Sim :=
  let now := s.tickCount
  let dueTicks := s.nextTickList.filter (fun t => decide (t.time ≤ now))
  let kept := s.nextTickList.filter (fun t => decide (now < t.time))
  List.foldl (fireEntry f) { s with nextTickList := kept } dueTicks

/-- `tick()`: advance the clock, then drain the due scheduled entries. -/
def tick (f : Nat) (s : Sim) : Sim :=
  processScheduledTicks f { s with tickCount := s.tickCount + 1 }

/-- `LeverComponent.toggle(simulator, x, y)` on the lever component `c` of
entity `i`: flip the power level between 0 and 15, mirror the new level into
the `powered` tag of the `blockState`, and notify neighbors. -/
def leverToggle (f : Nat) (s : Sim) (i : Int) (c : RComp) (x y : Int) : Sim :=
  let newLvl : Int := if 0 < c.powerLevel then 0 else 15
  let s1 := setCompById s i (fun cc => { cc with powerLevel := newLvl })
  let s2 := updateBlockStateAt s1 x y
    (fun b => { b with powered := decide (0 < newLvl) })
  notifyNeighbors f s2 x y

/-- `ButtonComponent.press(simulator, x, y)` on the button component `c` of
entity `i`: an unpowered button powers to 15, sets the `powered` tag,
notifies neighbors and schedules its release 20 game ticks later; pressing
an already-powered button does nothing. -/
def buttonPress (f : Nat) (s : Sim) (i : Int) (c : RComp) (x y : Int) : Sim :=
  if c.powerLevel = 0 then
    let s1 := setCompById s i (fun cc => { cc with powerLevel := 15 })
    let s2 := updateBlockStateAt s1 x y (fun b => { b with powered := true })
    let s3 := notifyNeighbors f s2 x y
    scheduleBlockUpdate s3 x y 20
  else s

/-- `InputManager.placeOrInteract(x, y)` with the selected component `ty`
(the placement path behind the spec's `createBlock(kind, x, y)` API):
out-of-bounds clicks are ignored; the `erase` tool removes the occupant and
notifies its neighbors; on an empty cell the selected kind is placed through
`createEntity`; on an occupied cell the click interacts with the existing
block instead — toggling a lever, pressing a button, otherwise doing
nothing — and never inserts a record. -/
def placeOrInteract (f : Nat) (ty : String) (x y : Int) (s : Sim) : Sim :=
  if x < 0 ∨ (s.width : Int) ≤ x ∨ y < 0 ∨ (s.height : Int) ≤ y then s
  else
    match getBlockEntity s x y with
    | none => if ty = "erase" then s else (createEntity f ty x y s).1
    | some (i, e) =>
      if ty = "erase" then notifyNeighbors f (removeEntityById s i) x y
      else
        match e.redstone with
        | none => s
        | some c =>
          if e.bs.type = "minecraft:lever" then leverToggle f s i c x y
          else if e.bs.type = "minecraft:button" then buttonPress f s i c x y
          else s

/-! ## Association-list lemmas -/
/-- Entity lookup by id (`entityManager.entities.get(id)`). -/
def entById (s : Sim) (i : Int) : Option Entity :=
  (s.em.entities.find? (fun pe => pe.1 == i)).map Prod.snd

/-- Redstone component lookup by id. -/
def compById (s : Sim) (i : Int) : Option RComp :=
  (entById s i).bind Entity.redstone

/-- The id column of the entity store. -/
def idsOf (s : Sim) : List Int :=
  s.em.entities.map Prod.fst

/-- Ids are pairwise distinct (true of every store the simulator builds,
since `nextId` is monotone). -/
def NodupIds (s : Sim) : Prop :=
  (idsOf s).Nodup

/-- Every stored id was allocated below the id counter. -/
def IdsBounded (s : Sim) : Prop :=
  ∀ pe ∈ s.em.entities, pe.1 < s.em.nextId

instance (s : Sim) : Decidable (NodupIds s) := by
  unfold NodupIds
  infer_instance

instance (s : Sim) : Decidable (IdsBounded s) := by
  unfold IdsBounded
  infer_instance

/-! ## Skeleton preservation of the notification cascade

A neighbor-update cascade only mutates dust power levels, repeater lock
flags, the `powerLevel` entries of `blockState`s, and the scheduler queue.
`eraseComp`/`eraseEnt` quotient exactly those fields away, and `skel` is the
part of the state the cascade provably fixes. -/
/-- Forget the fields a notification cascade may rewrite in a component. -/
def eraseComp (c : RComp) : RComp :=
  { c with
    powerLevel := if c.kind = CKind.dust then 0 else c.powerLevel,
    locked := false }

/-- Forget the fields a notification cascade may rewrite in an entity. -/
def eraseEnt (e : Entity) : Entity :=
  { e with
    redstone := e.redstone.map eraseComp,
    bs := { e.bs with powerLevel := 0 } }

/-- The cascade-invariant part of the simulator state. -/
def skel (s : Sim) : Nat × Nat × Nat × Int × List (Int × Entity) :=
  (s.width, s.height, s.tickCount, s.em.nextId,
    s.em.entities.map (fun pe => (pe.1, eraseEnt pe.2)))

/-! ## Concrete states and helper predicates used by the claim theorems -/
/-- The walk condition of `canPush` at one occupied cell: a block is present
and it is movable. -/
def movableAt (s : Sim) (cx cy : Int) : Bool :=
  match getBlockEntity s cx cy with
  | none => false
  | some pe => !(isImmovableBS pe.2.bs)

/-- The position column of the entity store. -/
def posList (s : Sim) : List BlockPos :=
  s.em.entities.map (fun pe => pe.2.pos)

/-- A stone entity as `createEntity` builds it. -/
def stoneEnt (x y : Int) : Entity :=
  ⟨⟨x, y⟩, registryComp "minecraft:stone", mkBState "minecraft:stone"⟩

/-- A piston entity with a given rotation. -/
def pistonEntR (x y : Int) (rot : Nat) : Entity :=
  ⟨⟨x, y⟩, registryComp "minecraft:piston",
    { mkBState "minecraft:piston" with rotation := rot }⟩

/-- A row of `n` stones on cells `(1, 0) ... (n, 0)` with ids `2 ... n+1`. -/
def stoneRow (n : Nat) : List (Int × Entity) :=
  (List.range n).map (fun k => ((k : Int) + 2, stoneEnt ((k : Int) + 1) 0))

/-- An east-facing piston at the origin with `n` stones in front of it. -/
def simRow (n : Nat) : Sim :=
  ⟨64, 48, ⟨(n : Int) + 2, (1, pistonEntR 0 0 1) :: stoneRow n⟩, 0, []⟩

/-- Trace for the orphan-schedule behavior: a stone is placed at the origin,
an update for that cell is enqueued, the stone is removed and an observer is
created in its place; the pending entry is still in the queue. -/
def sC2 : Sim :=
  (createEntity 20 "minecraft:observer" 0 0
    (removeEntityById
      (scheduleBlockUpdate
        ((createEntity 20 "minecraft:stone" 0 0 emptySim).1) 0 0 1) 1)).1

/-- One tick later the pending entry has fired. -/
def sC2res : Sim :=
  tick 20 sC2

/-- Trace for the torch attachment direction: a torch with rotation 0 at the
origin and a redstone block on its north side, run to the torch's scheduled
reevaluation. -/
def sC4 : Sim :=
  tick 20 (tick 20
    ((createEntity 20 "minecraft:redstone_block" 0 (-1)
      ((createEntity 20 "minecraft:redstone_torch" 0 0 emptySim).1)).1))

/-- Trace for the orphaned piston head: a redstone block powers a piston,
which extends on its scheduled tick (creating head id 3 at `(0, -1)`), and
the piston entity (id 2) is then deleted. -/
def sC5 : Sim :=
  removeEntityById
    (tick 20 (tick 20
      ((createEntity 20 "minecraft:piston" 0 0
        ((createEntity 20 "minecraft:redstone_block" 0 1 emptySim).1)).1))) 2

/-- Trace for the repeater scheduled tick: an idle unlocked repeater at
`(1, 0)` with an observer at `(1, 1)` watching it, and a pending scheduled
entry for the repeater. -/
def sC6pre : Sim :=
  scheduleBlockUpdate
    ((createEntity 20 "minecraft:observer" 1 1
      ((createEntity 20 "minecraft:repeater" 1 0 emptySim).1)).1) 1 0 1

/-- One tick later the repeater entry has fired (with desired state equal to
its current state). -/
def sC6 : Sim :=
  tick 20 sC6pre

/-- A dust component holding a given power level, with matching visuals. -/
def dustEntL (x y : Int) (lvl : Int) : Entity :=
  ⟨⟨x, y⟩, some { baseComp CKind.dust with powerLevel := lvl },
    { mkBState "minecraft:redstone_dust" with powerLevel := lvl }⟩

/-- A redstone block entity. -/
def rblockEnt (x y : Int) : Entity :=
  ⟨⟨x, y⟩, registryComp "minecraft:redstone_block",
    mkBState "minecraft:redstone_block"⟩

/-- A comparator entity with a given rotation and mode. -/
def compEntR (x y : Int) (rot : Nat) (md : String) : Entity :=
  ⟨⟨x, y⟩, some { baseComp CKind.comparator with mode := md },
    { mkBState "minecraft:comparator" with rotation := rot }⟩

/-- Witness state for the wire update: a fresh dust at the origin flanked by
a redstone block (east) and a level-4 dust (south). -/
def sC8 : Sim :=
  ⟨64, 48, ⟨4, [(1, ⟨⟨0, 0⟩, registryComp "minecraft:redstone_dust",
    mkBState "minecraft:redstone_dust"⟩), (2, rblockEnt 1 0),
    (3, dustEntL 0 1 4)]⟩, 0, []⟩

/-- Witness state for the comparator: an east-facing subtract-mode comparator
at the origin, rear fed by a redstone block (west) and one side by a level-4
dust (north). -/
def sC9 : Sim :=
  ⟨64, 48, ⟨4, [(1, compEntR 0 0 1 "subtract"), (2, rblockEnt (-1) 0),
    (3, dustEntL 0 (-1) 4)]⟩, 0, []⟩

/-- A single stone at the origin (occupied-cell witness). -/
def sOcc : Sim :=
  (createEntity 20 "minecraft:stone" 0 0 emptySim).1

/-- An unregistered `minecraft:obsidian` record at the origin. -/
def sObs : Sim :=
  (createEntity 20 "minecraft:obsidian" 0 0 emptySim).1

/-- An east-facing piston staring at an obsidian block. -/
def sObsPiston : Sim :=
  ⟨64, 48, ⟨3, [(1, pistonEntR 0 0 1),
    (2, ⟨⟨1, 0⟩, registryComp "minecraft:obsidian",
      mkBState "minecraft:obsidian"⟩)]⟩, 0, []⟩

/-! ## Claim C8: wire power recomputation -/
/-- The per-neighbor contribution as the specification words it ("for a wire
neighbor that neighbor's `powerLevel - 1` floored at 0, for a power-emitting
neighbor its output toward the wire"); stated for comparison against the
source's running `Math.max` fold. -/
def specWireContrib (s : Sim) (x y : Int) (d : Nat) : Int :=
  let v := dirVec d
  match getBlockEntity s (x + v.1) (y + v.2) with
  | none => 0
  | some pe =>
    match pe.2.redstone with
    | none => 0
    | some c =>
      if c.kind = CKind.dust then max 0 (c.powerLevel - 1)
      else getPowerOutput s c (x + v.1) (y + v.2) (dirOpp d)

/-! ## Claim C4: torch attachment and output -/
/-- A torch entity as `createEntity` builds it. -/
def torchEnt (x y : Int) : Entity :=
  ⟨⟨x, y⟩, registryComp "minecraft:redstone_torch",
    mkBState "minecraft:redstone_torch"⟩

/-- Witness state for the torch: rotation 0 at the origin, with a redstone
block on the south side (the actual attachment). -/
def sC4w : Sim :=
  ⟨64, 48, ⟨3, [(1, torchEnt 0 0), (2, rblockEnt 0 1)]⟩, 0, []⟩

/-! ## Claim C6: repeater update protocol -/
/-- A repeater entity with a given rotation. -/
def repEntR (x y : Int) (rot : Nat) : Entity :=
  ⟨⟨x, y⟩, registryComp "minecraft:repeater",
    { mkBState "minecraft:repeater" with rotation := rot }⟩

/-- Witness state for the repeater neighbor update: a north-facing repeater
at `(1, 0)` whose rear cell `(1, 1)` holds a redstone block. -/
def sC6w : Sim :=
  ⟨64, 48, ⟨3, [(1, repEntR 1 0 0), (2, rblockEnt 1 1)]⟩, 0, []⟩

/-- Observer for the head-linkage claim: the fields of an entity that identify
a piston head (position, rotation, component kind and back-reference). -/
def headView (e : Entity) : BlockPos × Nat × Option (CKind × Int) :=
  (e.pos, e.bs.rotation, e.redstone.map (fun cc => (cc.kind, cc.sourcePistonId)))

/-- Observer for the piston side of the linkage: the extension flag and the
stored head id. -/
def pistonView (c : RComp) : Bool × Int :=
  (c.extended, c.headId)

/-- A retracted-side witness component: an extended non-sticky piston whose
head is entity 3. -/
def cC5w : RComp :=
  { baseComp CKind.piston with extended := true, headId := 3 }

/-- The extended piston entity at the origin for the retraction witness. -/
def eC5w : Entity :=
  ⟨⟨0, 0⟩, some cC5w, { mkBState "minecraft:piston" with extended := true }⟩

/-- The linked piston head entity one cell north for the retraction witness. -/
def hdC5w : Entity :=
  ⟨⟨0, -1⟩, some { baseComp CKind.pistonHead with sourcePistonId := 2 },
    mkBState "minecraft:piston_head"⟩

/-- An extended piston (id 2) with its head (id 3) already linked. -/
def sC5w : Sim := ⟨64, 48, ⟨4, [(2, eC5w), (3, hdC5w)]⟩, 0, []⟩

/-- Positional dispatch unfolds to component dispatch on the found entity. -/
theorem onNeighborPos_succ (f : Nat) (s : Sim) (x y fx fy : Int) :
    onNeighborPos (Nat.succ f) s x y fx fy =
      match getBlockEntity s x y with
      | none => s
      | some (i, e) =>
        match e.redstone with
        | none => s
        | some c => onNeighborComp f s i c x y fx fy := by
  show _ = _
  cases h : getBlockEntity s x y with
  | none => simp [onNeighborPos, h]
  | some ie =>
    obtain ⟨i, e⟩ := ie
    cases hr : e.redstone with
    | none => simp [onNeighborPos, h, hr]
    | some c =>
      cases c.kind <;>
        simp [onNeighborPos, onNeighborComp, h, hr, notifyNeighbors]

theorem modFirst_map_fst (p : Int × Entity → Bool) (g : Entity → Entity) :
    ∀ l : List (Int × Entity), (modFirst p g l).map Prod.fst = l.map Prod.fst := by
  intro l
  induction l with
  | nil => rfl
  | cons h t ih =>
    by_cases hp : p h = true
    · simp [modFirst, hp]
    · simp [modFirst, hp, ih]

theorem modFirst_map_eq {β : Type} (F : Int × Entity → β) (p : Int × Entity → Bool)
    (g : Entity → Entity) :
    ∀ l : List (Int × Entity), (∀ a ∈ l, p a = true → F (a.1, g a.2) = F a) →
      (modFirst p g l).map F = l.map F := by
  intro l
  induction l with
  | nil => intro _; rfl
  | cons h t ih =>
    intro hinv
    by_cases hp : p h = true
    · simpa [modFirst, hp] using hinv h (by simp) hp
    · simp only [modFirst, hp, if_neg, Bool.false_eq_true, not_false_iff, List.map_cons]
      rw [ih (fun a ha hpa => hinv a (by simp [ha]) hpa)]

theorem nodup_keys_eq {l : List (Int × Entity)} (h : (l.map Prod.fst).Nodup)
    {i : Int} {a b : Entity} (ha : (i, a) ∈ l) (hb : (i, b) ∈ l) : a = b := by
  induction l with
  | nil => cases ha
  | cons hd t ih =>
    simp only [List.map_cons, List.nodup_cons] at h
    rcases List.mem_cons.1 ha with ha' | ha' <;>
      rcases List.mem_cons.1 hb with hb' | hb'
    · exact congrArg Prod.snd (ha'.trans hb'.symm)
    · refine absurd ?_ h.1
      rw [← ha']
      simpa using List.mem_map_of_mem Prod.fst hb'
    · refine absurd ?_ h.1
      rw [← hb']
      simpa using List.mem_map_of_mem Prod.fst ha'
    · exact ih h.2 ha' hb'

theorem find?_id_of_nodup {l : List (Int × Entity)} (h : (l.map Prod.fst).Nodup)
    {i : Int} {e : Entity} (he : (i, e) ∈ l) :
    l.find? (fun pe => pe.1 == i) = some (i, e) := by
  have hsome : (l.find? (fun pe => pe.1 == i)).isSome := by
    rw [List.find?_isSome]
    exact ⟨(i, e), he, by simp⟩
  obtain ⟨a, hfa⟩ := Option.isSome_iff_exists.1 hsome
  have hmem := List.mem_of_find?_eq_some hfa
  have hkey : a.1 = i := by simpa using List.find?_some hfa
  obtain ⟨a1, a2⟩ := a
  subst hkey
  rw [hfa, nodup_keys_eq h hmem he]

/-- A positional find over a nodup-keyed store is also the first entry with
its id. -/
theorem find?_pos_to_id {s : Sim} (hnd : NodupIds s) {i : Int} {e : Entity}
    {x y : Int} (hf : getBlockEntity s x y = some (i, e)) :
    s.em.entities.find? (fun pe => pe.1 == i) = some (i, e) :=
  find?_id_of_nodup hnd (List.mem_of_find?_eq_some hf)

theorem pos_of_getBlockEntity {s : Sim} {x y : Int} {i : Int} {e : Entity}
    (hf : getBlockEntity s x y = some (i, e)) : e.pos = ⟨x, y⟩ := by
  have := List.find?_some hf
  simp only [Bool.and_eq_true, beq_iff_eq] at this
  obtain ⟨e1, e2⟩ := this
  cases hp : e.pos
  simp_all

theorem rotOf_eq {s : Sim} {x y : Int} {i : Int} {e : Entity}
    (hf : getBlockEntity s x y = some (i, e)) : rotOf s x y = e.bs.rotation := by
  simp [rotOf, hf]

theorem idsOf_of_skel_eq {s' s : Sim} (h : skel s' = skel s) :
    idsOf s' = idsOf s := by
  have h5 := congrArg (fun q => q.2.2.2.2.map Prod.fst) h
  simpa [skel, idsOf, List.map_map, Function.comp] using h5

theorem nodupIds_of_skel_eq {s' s : Sim} (h : skel s' = skel s)
    (hnd : NodupIds s) : NodupIds s' := by
  unfold NodupIds
  rw [idsOf_of_skel_eq h]
  exact hnd

theorem skel_scheduleBlockUpdate (s : Sim) (x y : Int) (d : Nat) :
    skel (scheduleBlockUpdate s x y d) = skel s := rfl

theorem eraseComp_setLocked (c : RComp) (lk : Bool) :
    eraseComp { c with locked := lk } = eraseComp c := by
  simp [eraseComp]

theorem eraseComp_setLevel_dust {c : RComp} (hk : c.kind = CKind.dust)
    (lvl : Int) : eraseComp { c with powerLevel := lvl } = eraseComp c := by
  simp [eraseComp, hk]

theorem eraseEnt_setBSLevel (e : Entity) (lvl : Int) :
    eraseEnt { e with bs := { e.bs with powerLevel := lvl } } = eraseEnt e := by
  simp [eraseEnt]

theorem eraseEnt_mapComp (e : Entity) (g : RComp → RComp)
    (h : ∀ c, eraseComp (g c) = eraseComp c) :
    eraseEnt { e with redstone := e.redstone.map g } = eraseEnt e := by
  simp only [eraseEnt, Option.map_map]
  congr 1
  apply congrFun
  apply congrArg
  funext c
  exact h c

theorem eraseEnt_mapComp_some {e : Entity} {c : RComp} (hr : e.redstone = some c)
    (g : RComp → RComp) (h : eraseComp (g c) = eraseComp c) :
    eraseEnt { e with redstone := e.redstone.map g } = eraseEnt e := by
  simp [eraseEnt, hr, h]

theorem skel_eq_of_entities {s' s : Sim}
    (hw : s'.width = s.width) (hh : s'.height = s.height)
    (ht : s'.tickCount = s.tickCount) (hn : s'.em.nextId = s.em.nextId)
    (he : s'.em.entities.map (fun pe => (pe.1, eraseEnt pe.2)) =
      s.em.entities.map (fun pe => (pe.1, eraseEnt pe.2))) :
    skel s' = skel s := by
  simp [skel, hw, hh, ht, hn, he]

theorem skel_updateBlockStateAt_powerLevel (s : Sim) (x y : Int) (lvl : Int) :
    skel (updateBlockStateAt s x y (fun b => { b with powerLevel := lvl })) = skel s := by
  apply skel_eq_of_entities
  · rfl
  · rfl
  · rfl
  · rfl
  apply modFirst_map_eq
  intro a _ _
  simp [eraseEnt_setBSLevel]

theorem skel_setCompById_locked (s : Sim) (i : Int) (lk : Bool) :
    skel (setCompById s i (fun cc => { cc with locked := lk })) = skel s := by
  apply skel_eq_of_entities
  · rfl
  · rfl
  · rfl
  · rfl
  apply modFirst_map_eq
  intro a _ _
  rw [eraseEnt_mapComp a.2 _ (fun c => eraseComp_setLocked c lk)]

theorem skel_setCompById_dustLevel {s : Sim} {i : Int} {e : Entity} {c : RComp}
    (hnd : NodupIds s) (hmem : (i, e) ∈ s.em.entities)
    (hr : e.redstone = some c) (hk : c.kind = CKind.dust) (lvl : Int) :
    skel (setCompById s i (fun cc => { cc with powerLevel := lvl })) = skel s := by
  apply skel_eq_of_entities
  · rfl
  · rfl
  · rfl
  · rfl
  apply modFirst_map_eq
  intro a ha hpa
  obtain ⟨a1, a2⟩ := a
  have hai : a1 = i := by simpa using hpa
  subst hai
  have ha2 : a2 = e := nodup_keys_eq hnd ha hmem
  subst ha2
  simp only [Prod.mk.injEq, true_and]
  exact eraseEnt_mapComp_some hr _ (eraseComp_setLevel_dust hk lvl)

theorem skel_repeaterNU (s : Sim) (i : Int) (c : RComp) (x y : Int) :
    skel (repeaterNU s i c x y) = skel s := by
  simp only [repeaterNU]
  split
  · exact skel_setCompById_locked s i _
  · split
    · exact skel_setCompById_locked s i _
    · rw [skel_scheduleBlockUpdate, skel_setCompById_locked]

theorem skel_observerNU (s : Sim) (x y fx fy : Int) :
    skel (observerNU s x y fx fy) = skel s := by
  simp only [observerNU]
  split
  · exact skel_scheduleBlockUpdate s x y 2
  · rfl

theorem skel_pistonNU (s : Sim) (c : RComp) (x y : Int) :
    skel (pistonNU s c x y) = skel s := by
  simp only [pistonNU]
  split
  · rfl
  · exact skel_scheduleBlockUpdate s x y 2

theorem onNeighborPos_succ_none {s : Sim} {x y : Int} (f : Nat) (fx fy : Int)
    (h : getBlockEntity s x y = none) :
    onNeighborPos (Nat.succ f) s x y fx fy = s := by
  rw [onNeighborPos_succ, h]

theorem onNeighborPos_succ_nocomp {s : Sim} {x y : Int} {i : Int} {e : Entity}
    (f : Nat) (fx fy : Int) (h : getBlockEntity s x y = some (i, e))
    (hr : e.redstone = none) :
    onNeighborPos (Nat.succ f) s x y fx fy = s := by
  rw [onNeighborPos_succ, h]
  simp [hr]

theorem onNeighborPos_succ_comp {s : Sim} {x y : Int} {i : Int} {e : Entity}
    {c : RComp} (f : Nat) (fx fy : Int)
    (h : getBlockEntity s x y = some (i, e)) (hr : e.redstone = some c) :
    onNeighborPos (Nat.succ f) s x y fx fy = onNeighborComp f s i c x y fx fy := by
  rw [onNeighborPos_succ, h]
  simp [hr]

/-- A neighbor-update cascade leaves the skeleton (everything but dust power
levels, repeater locks, `blockState` power levels and the queue) unchanged. -/
theorem skel_onNeighborPos :
    ∀ (f : Nat) (s : Sim) (x y fx fy : Int), NodupIds s →
      skel (onNeighborPos f s x y fx fy) = skel s := by
  intro f
  induction f with
  | zero => intro s x y fx fy _; rfl
  | succ f ih =>
    intro s x y fx fy hnd
    have hnotify : ∀ (s' : Sim) (x' y' : Int), NodupIds s' →
        skel (notifyNeighbors f s' x' y') = skel s' := by
      intro s' x' y' hnd'
      unfold notifyNeighbors
      have e1 := ih s' x' (y' - 1) x' y' hnd'
      have hnd2 : NodupIds _ := nodupIds_of_skel_eq e1 hnd'
      have e2 := ih _ (x' + 1) y' x' y' hnd2
      have hnd3 : NodupIds _ := nodupIds_of_skel_eq e2 hnd2
      have e3 := ih _ x' (y' + 1) x' y' hnd3
      have hnd4 : NodupIds _ := nodupIds_of_skel_eq e3 hnd3
      have e4 := ih _ (x' - 1) y' x' y' hnd4
      rw [e4, e3, e2, e1]
    cases hf : getBlockEntity s x y with
    | none => rw [onNeighborPos_succ_none f fx fy hf]
    | some ie =>
      obtain ⟨i, e⟩ := ie
      cases hr : e.redstone with
      | none => rw [onNeighborPos_succ_nocomp f fx fy hf hr]
      | some c =>
        rw [onNeighborPos_succ_comp f fx fy hf hr]
        cases hk : c.kind with
        | dust =>
          simp only [onNeighborComp, hk]
          split
          · rfl
          · have hmem : (i, e) ∈ s.em.entities := List.mem_of_find?_eq_some hf
            have h1 := skel_setCompById_dustLevel hnd hmem hr hk
              (wireComputedLevel s x y)
            have h2 := skel_updateBlockStateAt_powerLevel
              (setCompById s i (fun cc =>
                { cc with powerLevel := wireComputedLevel s x y })) x y
              (wireComputedLevel s x y)
            have h12 := h2.trans h1
            rw [hnotify _ x y (nodupIds_of_skel_eq h12 hnd), h12]
        | torch => simp only [onNeighborComp, hk]; exact skel_scheduleBlockUpdate s x y 2
        | repeater => simp only [onNeighborComp, hk]; exact skel_repeaterNU s i c x y
        | comparator => simp only [onNeighborComp, hk]; exact skel_scheduleBlockUpdate s x y 0
        | observer => simp only [onNeighborComp, hk]; exact skel_observerNU s x y fx fy
        | piston => simp only [onNeighborComp, hk]; exact skel_pistonNU s c x y
        | lever => simp only [onNeighborComp, hk]
        | button => simp only [onNeighborComp, hk]
        | pistonHead => simp only [onNeighborComp, hk]
        | redstoneBlock => simp only [onNeighborComp, hk]
        | stone => simp only [onNeighborComp, hk]

theorem skel_notifyNeighbors (f : Nat) (s : Sim) (x y : Int)
    (hnd : NodupIds s) : skel (notifyNeighbors f s x y) = skel s := by
  unfold notifyNeighbors
  have e1 := skel_onNeighborPos f s x (y - 1) x y hnd
  have hnd2 : NodupIds _ := nodupIds_of_skel_eq e1 hnd
  have e2 := skel_onNeighborPos f _ (x + 1) y x y hnd2
  have hnd3 : NodupIds _ := nodupIds_of_skel_eq e2 hnd2
  have e3 := skel_onNeighborPos f _ x (y + 1) x y hnd3
  have hnd4 : NodupIds _ := nodupIds_of_skel_eq e3 hnd3
  have e4 := skel_onNeighborPos f _ (x - 1) y x y hnd4
  rw [e4, e3, e2, e1]

/-! ## Transport of lookups along skeleton equality, and field extraction -/
theorem eraseEnt_pos (e : Entity) : (eraseEnt e).pos = e.pos := rfl

theorem eraseEnt_bs_type (e : Entity) : (eraseEnt e).bs.type = e.bs.type := rfl

theorem eraseEnt_bs_rotation (e : Entity) :
    (eraseEnt e).bs.rotation = e.bs.rotation := rfl

theorem eraseEnt_redstone (e : Entity) :
    (eraseEnt e).redstone = e.redstone.map eraseComp := rfl

theorem eraseComp_kind (c : RComp) : (eraseComp c).kind = c.kind := rfl

theorem erase_eq_kind {c' c : RComp} (h : eraseComp c' = eraseComp c) :
    c'.kind = c.kind := by
  have h1 := congrArg RComp.kind h
  simpa [eraseComp] using h1

theorem erase_eq_powered {c' c : RComp} (h : eraseComp c' = eraseComp c) :
    c'.powered = c.powered := by
  have h1 := congrArg RComp.powered h
  simpa [eraseComp] using h1

theorem erase_eq_outputPower {c' c : RComp} (h : eraseComp c' = eraseComp c) :
    c'.outputPower = c.outputPower := by
  have h1 := congrArg RComp.outputPower h
  simpa [eraseComp] using h1

theorem erase_eq_extended {c' c : RComp} (h : eraseComp c' = eraseComp c) :
    c'.extended = c.extended := by
  have h1 := congrArg RComp.extended h
  simpa [eraseComp] using h1

theorem erase_eq_headId {c' c : RComp} (h : eraseComp c' = eraseComp c) :
    c'.headId = c.headId := by
  have h1 := congrArg RComp.headId h
  simpa [eraseComp] using h1

theorem erase_eq_sourcePistonId {c' c : RComp} (h : eraseComp c' = eraseComp c) :
    c'.sourcePistonId = c.sourcePistonId := by
  have h1 := congrArg RComp.sourcePistonId h
  simpa [eraseComp] using h1

theorem erase_eq_isSticky {c' c : RComp} (h : eraseComp c' = eraseComp c) :
    c'.isSticky = c.isSticky := by
  have h1 := congrArg RComp.isSticky h
  simpa [eraseComp] using h1

theorem erase_eq_powerLevel {c' c : RComp} (h : eraseComp c' = eraseComp c)
    (hk : c.kind ≠ CKind.dust) : c'.powerLevel = c.powerLevel := by
  have h1 := congrArg RComp.powerLevel h
  have hk' : c'.kind = c.kind := erase_eq_kind h
  have hkk : ¬(c'.kind = CKind.dust) := by rw [hk']; exact hk
  simp only [eraseComp, if_neg hkk, if_neg hk] at h1
  exact h1

theorem eraseEnt_eq_pos {e' e : Entity} (h : eraseEnt e' = eraseEnt e) :
    e'.pos = e.pos := by
  have h1 := congrArg Entity.pos h
  simpa [eraseEnt] using h1

theorem eraseEnt_eq_bs_type {e' e : Entity} (h : eraseEnt e' = eraseEnt e) :
    e'.bs.type = e.bs.type := by
  have h1 := congrArg (fun a : Entity => a.bs.type) h
  simpa [eraseEnt] using h1

theorem eraseEnt_eq_bs_rotation {e' e : Entity} (h : eraseEnt e' = eraseEnt e) :
    e'.bs.rotation = e.bs.rotation := by
  have h1 := congrArg (fun a : Entity => a.bs.rotation) h
  simpa [eraseEnt] using h1

theorem eraseEnt_eq_comp {e' e : Entity} {c : RComp}
    (h : eraseEnt e' = eraseEnt e) (hr : e.redstone = some c) :
    ∃ c', e'.redstone = some c' ∧ eraseComp c' = eraseComp c := by
  have h1 := congrArg Entity.redstone h
  rw [eraseEnt_redstone, eraseEnt_redstone, hr] at h1
  cases hr' : e'.redstone with
  | none => rw [hr'] at h1; simp at h1
  | some c' =>
    rw [hr'] at h1
    simp at h1
    exact ⟨c', rfl, h1⟩

theorem skel_eq_entsErase {s' s : Sim} (h : skel s' = skel s) :
    s'.em.entities.map (fun pe => (pe.1, eraseEnt pe.2)) =
      s.em.entities.map (fun pe => (pe.1, eraseEnt pe.2)) :=
  congrArg (fun q => q.2.2.2.2) h

theorem skel_eq_width {s' s : Sim} (h : skel s' = skel s) :
    s'.width = s.width := congrArg (fun q => q.1) h

theorem skel_eq_height {s' s : Sim} (h : skel s' = skel s) :
    s'.height = s.height := congrArg (fun q => q.2.1) h

theorem skel_eq_tickCount {s' s : Sim} (h : skel s' = skel s) :
    s'.tickCount = s.tickCount := congrArg (fun q => q.2.2.1) h

theorem skel_eq_nextId {s' s : Sim} (h : skel s' = skel s) :
    s'.em.nextId = s.em.nextId := congrArg (fun q => q.2.2.2.1) h

theorem find?_map_erase (q : Int × Entity → Bool)
    (hq : ∀ a : Int × Entity, q (a.1, eraseEnt a.2) = q a)
    (l : List (Int × Entity)) :
    (l.map (fun pe => (pe.1, eraseEnt pe.2))).find? q =
      (l.find? q).map (fun pe => (pe.1, eraseEnt pe.2)) := by
  have hqF : (q ∘ fun pe : Int × Entity => (pe.1, eraseEnt pe.2)) = q := by
    funext a
    exact hq a
  rw [List.find?_map, hqF]

theorem getBlockEntity_erase_of_skel_eq {s' s : Sim} (h : skel s' = skel s)
    (x y : Int) :
    (getBlockEntity s' x y).map (fun pe => (pe.1, eraseEnt pe.2)) =
      (getBlockEntity s x y).map (fun pe => (pe.1, eraseEnt pe.2)) := by
  unfold getBlockEntity
  rw [← find?_map_erase (fun pe => pe.2.pos.x == x && pe.2.pos.y == y)
      (fun a => rfl),
    ← find?_map_erase (fun pe => pe.2.pos.x == x && pe.2.pos.y == y)
      (fun a => rfl),
    skel_eq_entsErase h]

theorem entById_erase_of_skel_eq {s' s : Sim} (h : skel s' = skel s) (i : Int) :
    (entById s' i).map eraseEnt = (entById s i).map eraseEnt := by
  unfold entById
  rw [Option.map_map, Option.map_map]
  have h1 : ∀ t : Sim, (t.em.entities.find? (fun pe => pe.1 == i)).map
      (eraseEnt ∘ Prod.snd) =
      ((t.em.entities.map (fun pe => (pe.1, eraseEnt pe.2))).find?
        (fun pe => pe.1 == i)).map Prod.snd := by
    intro t
    rw [find?_map_erase (fun pe => pe.1 == i) (fun a => rfl), Option.map_map]
    rfl
  rw [h1, h1, skel_eq_entsErase h]

theorem rotOf_of_skel_eq {s' s : Sim} (h : skel s' = skel s) (x y : Int) :
    rotOf s' x y = rotOf s x y := by
  unfold rotOf
  have := getBlockEntity_erase_of_skel_eq h x y
  cases h1 : getBlockEntity s' x y <;> cases h2 : getBlockEntity s x y <;>
    rw [h1, h2] at this <;> simp at this ⊢
  obtain ⟨he1, he2⟩ := this
  rw [← eraseEnt_bs_rotation, he2, eraseEnt_bs_rotation]

/-! ## Lookup / update commutation on the entity store -/
theorem find?_id_modFirst_proj {β : Type} (P : Entity → β)
    (p : Int × Entity → Bool) (gE : Entity → Entity) (i : Int)
    (h : ∀ e, P (gE e) = P e) :
    ∀ l : List (Int × Entity),
      ((modFirst p gE l).find? (fun pe => pe.1 == i)).map (fun pe => P pe.2) =
        (l.find? (fun pe => pe.1 == i)).map (fun pe => P pe.2) := by
  intro l
  induction l with
  | nil => rfl
  | cons hd t ih =>
    by_cases hp : p hd = true
    · simp only [modFirst, hp, if_pos]
      by_cases hi : (hd.1 == i) = true
      · simp [List.find?_cons, hi, h]
      · simp [List.find?_cons, hi]
    · simp only [modFirst, hp, if_neg, Bool.false_eq_true, not_false_iff]
      by_cases hi : (hd.1 == i) = true
      · simp [List.find?_cons, hi]
      · simp [List.find?_cons, hi, ih]

theorem find?_id_modFirst_id (gE : Entity → Entity) (i : Int) :
    ∀ l : List (Int × Entity),
      (modFirst (fun pe => pe.1 == i) gE l).find? (fun pe => pe.1 == i) =
        (l.find? (fun pe => pe.1 == i)).map (fun pe => (pe.1, gE pe.2)) := by
  intro l
  induction l with
  | nil => rfl
  | cons hd t ih =>
    by_cases hi : (hd.1 == i) = true
    · simp [modFirst, hi, List.find?_cons]
    · simp [modFirst, hi, List.find?_cons, ih]

theorem entById_setCompById (s : Sim) (i : Int) (g : RComp → RComp) :
    entById (setCompById s i g) i =
      (entById s i).map (fun e => { e with redstone := e.redstone.map g }) := by
  unfold entById setCompById withEntities
  simp only []
  rw [find?_id_modFirst_id]
  cases s.em.entities.find? (fun pe => pe.1 == i) <;> rfl

theorem entById_setBSById (s : Sim) (i : Int) (g : BState → BState) :
    entById (setBSById s i g) i =
      (entById s i).map (fun e => { e with bs := g e.bs }) := by
  unfold entById setBSById withEntities
  simp only []
  rw [find?_id_modFirst_id]
  cases s.em.entities.find? (fun pe => pe.1 == i) <;> rfl

theorem compById_eq_proj (s : Sim) (i : Int) :
    compById s i = (s.em.entities.find? (fun pe => pe.1 == i)).bind
      (fun pe => pe.2.redstone) := by
  unfold compById entById
  cases s.em.entities.find? (fun pe => pe.1 == i) <;> rfl

theorem compById_updateBlockStateAt (s : Sim) (x y : Int) (g : BState → BState)
    (i : Int) : compById (updateBlockStateAt s x y g) i = compById s i := by
  unfold compById entById updateBlockStateAt withEntities
  simp only []
  have h := find?_id_modFirst_proj Entity.redstone
    (fun pe => pe.2.pos.x == x && pe.2.pos.y == y)
    (fun e => { e with bs := g e.bs }) i (fun e => rfl) s.em.entities
  cases h1 : (modFirst (fun pe => pe.2.pos.x == x && pe.2.pos.y == y)
      (fun e => { e with bs := g e.bs }) s.em.entities).find?
      (fun pe => pe.1 == i) <;>
    cases h2 : s.em.entities.find? (fun pe => pe.1 == i) <;>
    rw [h1, h2] at h <;> simp_all

theorem compById_setPosById (s : Sim) (j : Int) (nx ny : Int) (i : Int) :
    compById (setPosById s j nx ny) i = compById s i := by
  unfold compById entById setPosById withEntities
  simp only []
  have h := find?_id_modFirst_proj Entity.redstone (fun pe => pe.1 == j)
    (fun e => { e with pos := ⟨nx, ny⟩ }) i (fun e => rfl) s.em.entities
  cases h1 : (modFirst (fun pe => pe.1 == j)
      (fun e => { e with pos := ⟨nx, ny⟩ }) s.em.entities).find?
      (fun pe => pe.1 == i) <;>
    cases h2 : s.em.entities.find? (fun pe => pe.1 == i) <;>
    rw [h1, h2] at h <;> simp_all

theorem find?_id_filter_ne {i j : Int} (hij : i ≠ j) :
    ∀ l : List (Int × Entity),
      (l.filter (fun pe => !(pe.1 == j))).find? (fun pe => pe.1 == i) =
        l.find? (fun pe => pe.1 == i) := by
  intro l
  induction l with
  | nil => rfl
  | cons hd t ih =>
    rw [List.filter_cons]
    by_cases hj : (hd.1 == j) = true
    · have hi : (hd.1 == i) = false := by
        have h1 : hd.1 = j := by simpa using hj
        simp [h1, Ne.symm hij]
      rw [hj]
      simp only [Bool.not_true, Bool.false_eq_true, if_false]
      rw [List.find?_cons, hi]
      exact ih
    · have hjb : (!(hd.1 == j)) = true := by
        simpa using hj
      rw [if_pos hjb]
      by_cases hi : (hd.1 == i) = true
      · rw [List.find?_cons, hi, List.find?_cons, hi]
      · have hi' : (hd.1 == i) = false := by simpa using hi
        rw [List.find?_cons, hi', List.find?_cons, hi']
        exact ih

theorem entById_filter_ne {s : Sim} {i j : Int} (hij : i ≠ j) :
    entById (removeEntityById s j) i = entById s i := by
  unfold entById removeEntityById withEntities
  simp only []
  rw [find?_id_filter_ne hij]

theorem entById_remove_self (s : Sim) (j : Int) :
    entById (removeEntityById s j) j = none := by
  unfold entById removeEntityById withEntities
  simp only []
  have h : (s.em.entities.filter (fun pe => !(pe.1 == j))).find?
      (fun pe => pe.1 == j) = none := by
    rw [List.find?_eq_none]
    intro a ha
    have h1 := List.of_mem_filter ha
    simpa using h1
  rw [h]
  rfl

theorem idsOf_setCompById (s : Sim) (i : Int) (g : RComp → RComp) :
    idsOf (setCompById s i g) = idsOf s := by
  unfold idsOf setCompById withEntities
  simp only []
  exact modFirst_map_fst _ _ _

theorem idsOf_setBSById (s : Sim) (i : Int) (g : BState → BState) :
    idsOf (setBSById s i g) = idsOf s := by
  unfold idsOf setBSById withEntities
  simp only []
  exact modFirst_map_fst _ _ _

theorem idsOf_setPosById (s : Sim) (i : Int) (nx ny : Int) :
    idsOf (setPosById s i nx ny) = idsOf s := by
  unfold idsOf setPosById withEntities
  simp only []
  exact modFirst_map_fst _ _ _

theorem idsOf_updateBlockStateAt (s : Sim) (x y : Int) (g : BState → BState) :
    idsOf (updateBlockStateAt s x y g) = idsOf s := by
  unfold idsOf updateBlockStateAt withEntities
  simp only []
  exact modFirst_map_fst _ _ _

/-! ## Characterization of the push walk -/
theorem canPushAux_iff (s : Sim) (vx vy : Int) :
    ∀ (m : Nat) (cx cy : Int),
      canPushAux s vx vy m cx cy = true ↔
        ∃ n : Nat, n < m ∧
          (∀ k : Nat, k < n →
            movableAt s (cx + vx * (k : Int)) (cy + vy * (k : Int)) = true) ∧
          getBlockEntity s (cx + vx * (n : Int)) (cy + vy * (n : Int)) = none := by
  intro m
  induction m with
  | zero =>
    intro cx cy
    simp [canPushAux]
  | succ m ih =>
    intro cx cy
    have hshift : ∀ (c v : Int) (k : Nat),
        c + v * (((k + 1 : Nat) : Int)) = (c + v) + v * (k : Int) := by
      intro c v k
      push_cast
      ring
    constructor
    · intro h
      rw [canPushAux] at h
      cases hb : getBlockEntity s cx cy with
      | none =>
        refine ⟨0, Nat.succ_pos m, by omega, ?_⟩
        simpa using hb
      | some pe =>
        obtain ⟨pi, pent⟩ := pe
        rw [hb] at h
        simp only [] at h
        cases him : isImmovableBS pent.bs with
        | true => rw [him] at h; simp at h
        | false =>
          rw [him] at h
          simp only [Bool.false_eq_true, if_false] at h
          obtain ⟨n, hn, hmov, hemp⟩ := (ih (cx + vx) (cy + vy)).1 h
          refine ⟨n + 1, Nat.succ_lt_succ hn, ?_, ?_⟩
          · intro k hk
            cases k with
            | zero => simp [movableAt, hb, him]
            | succ k =>
              rw [hshift, hshift]
              exact hmov k (by omega)
          · rw [hshift, hshift]
            exact hemp
    · rintro ⟨n, hn, hmov, hemp⟩
      rw [canPushAux]
      cases hb : getBlockEntity s cx cy with
      | none => rfl
      | some pe =>
        obtain ⟨pi, pent⟩ := pe
        simp only []
        cases n with
        | zero =>
          exfalso
          simp only [Nat.cast_zero, mul_zero, add_zero] at hemp
          rw [hemp] at hb
          cases hb
        | succ n =>
          have h0 := hmov 0 (Nat.succ_pos n)
          simp only [Nat.cast_zero, mul_zero, add_zero, movableAt, hb] at h0
          cases him : isImmovableBS pent.bs with
          | true => rw [him] at h0; simp at h0
          | false =>
            simp only [Bool.false_eq_true, if_false]
            apply (ih (cx + vx) (cy + vy)).2
            refine ⟨n, by omega, ?_, ?_⟩
            · intro k hk
              have h1 := hmov (k + 1) (by omega)
              rw [hshift, hshift] at h1
              exact h1
            · have h1 := hemp
              rw [hshift, hshift] at h1
              exact h1

/-! ## Claim C1: the piston push limit -/
/-- C1 (amended): the push limit is 11 movable blocks, not 12.  `canPush`
succeeds exactly when some chain of at most 11 contiguous movable blocks in
front of the piston is followed by an empty cell; it fails as soon as an
immovable block is met or a 12th movable block is counted; and a failed
`canPush` makes `extend` leave the state unchanged. -/
theorem C1_push_limit :
    (∀ (s : Sim) (x y : Int) (dir : Nat),
      canPush s x y dir = true ↔
        ∃ n : Nat, n ≤ 11 ∧
          (∀ k : Nat, k < n →
            movableAt s (x + (dirVec dir).1 * ((k : Int) + 1))
              (y + (dirVec dir).2 * ((k : Int) + 1)) = true) ∧
          getBlockEntity s (x + (dirVec dir).1 * ((n : Int) + 1))
            (y + (dirVec dir).2 * ((n : Int) + 1)) = none)
    ∧ (∀ (f : Nat) (s : Sim) (i : Int) (c : RComp) (x y : Int),
        canPush s x y (rotOf s x y) = false → pistonExtend f s i c x y = s) := by
  constructor
  · intro s x y dir
    have hsh : ∀ (c v : Int) (k : Nat), (c + v) + v * (k : Int) =
        c + v * ((k : Int) + 1) := by
      intro c v k
      ring
    unfold canPush
    rw [canPushAux_iff]
    constructor
    · rintro ⟨n, hn, hmov, hemp⟩
      refine ⟨n, by omega, ?_, ?_⟩
      · intro k hk
        have h1 := hmov k hk
        rw [hsh, hsh] at h1
        exact h1
      · rw [hsh, hsh] at hemp
        exact hemp
    · rintro ⟨n, hn, hmov, hemp⟩
      refine ⟨n, by omega, ?_, ?_⟩
      · intro k hk
        rw [hsh, hsh]
        exact hmov k hk
      · rw [hsh, hsh]
        exact hemp
  · intro f s i c x y hcp
    simp only [pistonExtend, hcp, Bool.false_eq_true, if_false, ite_self]

/-- C1 counterexample: a chain of exactly 12 movable stone blocks followed by
an empty cell.  The claim asserts such an extension succeeds; in the source
`canPush` counts the 12th movable block and fails, and the failed `extend`
changes nothing. -/
theorem C1_counterexample :
    (∀ k : Nat, k < 12 →
      movableAt (simRow 12) (0 + 1 * ((k : Int) + 1)) (0 + 0 * ((k : Int) + 1)) = true)
    ∧ getBlockEntity (simRow 12) (0 + 1 * ((12 : Int) + 1)) (0 + 0 * ((12 : Int) + 1)) = none
    ∧ canPush (simRow 12) 0 0 1 = false
    ∧ pistonExtend 20 (simRow 12) 1 (baseComp CKind.piston) 0 0 = simRow 12 := by
  decide

/-- Witness for C1 at a concrete chain: 11 movable blocks then an empty cell
succeed, and the rejected 12-block chain leaves the state unchanged. -/
theorem C1_push_limit_witness :
    canPush (simRow 11) 0 0 1 = true ∧
    pistonExtend 20 (simRow 12) 1 (baseComp CKind.piston) 0 0 = simRow 12 :=
  ⟨(C1_push_limit.1 (simRow 11) 0 0 1).mpr ⟨11, by decide, by decide, by decide⟩,
   C1_push_limit.2 20 (simRow 12) 1 (baseComp CKind.piston) 0 0 (by decide)⟩

/-! ## Claim C2: orphaned scheduled entries -/
/-- C2 (amended): a due entry is dropped with no state change when its cell
is empty or its occupant carries no redstone component; otherwise the
scheduled callback is dispatched to whatever block currently occupies the
cell — including a block different from the one present at enqueue time. -/
theorem C2_orphan_drop :
    ∀ (f : Nat) (s : Sim) (t : TickEntry),
      (getBlockEntity s t.x t.y = none → fireEntry f s t = s) ∧
      (∀ (i : Int) (e : Entity), getBlockEntity s t.x t.y = some (i, e) →
        e.redstone = none → fireEntry f s t = s) ∧
      (∀ (i : Int) (e : Entity) (c : RComp),
        getBlockEntity s t.x t.y = some (i, e) → e.redstone = some c →
        fireEntry f s t = onScheduledTickComp f s i c t.x t.y) := by
  intro f s t
  refine ⟨?_, ?_, ?_⟩
  · intro h
    simp [fireEntry, h]
  · intro i e h hr
    simp [fireEntry, h, hr]
  · intro i e c h hr
    simp [fireEntry, h, hr]

/-- C2 counterexample: an entry was enqueued for the origin cell while a
stone (id 1) sat there; at fire time an observer (id 2) occupies the cell
instead.  The claim says the entry is dropped silently with no dispatch to
the new occupant; the source dispatches `onScheduledTick` to the observer,
which pulses to power 15 and switches its visual tag. -/
theorem C2_counterexample :
    (getBlockEntity sC2 0 0).map Prod.fst = some 2 ∧
    sC2.nextTickList = [⟨0, 0, 1, 0⟩] ∧
    (compById sC2 2).map RComp.powerLevel = some 0 ∧
    (compById sC2res 2).map RComp.powerLevel = some 15 ∧
    (getBlockEntity sC2res 0 0).map (fun pe => pe.2.bs.type) =
      some "minecraft:observer_on" := by
  decide

/-- Witness for C2 at concrete entries: an empty cell drops the entry, a
component-less occupant (obsidian) drops the entry, and an occupant with a
component receives the dispatch. -/
theorem C2_orphan_drop_witness :
    fireEntry 20 emptySim ⟨0, 0, 0, 0⟩ = emptySim ∧
    fireEntry 20 sObs ⟨0, 0, 0, 0⟩ = sObs ∧
    fireEntry 20 sC2 ⟨0, 0, 1, 0⟩ =
      onScheduledTickComp 20 sC2 2 (baseComp CKind.observer) 0 0 :=
  ⟨(C2_orphan_drop 20 emptySim ⟨0, 0, 0, 0⟩).1 (by decide),
   (C2_orphan_drop 20 sObs ⟨0, 0, 0, 0⟩).2.1 1
     ⟨⟨0, 0⟩, none, mkBState "minecraft:obsidian"⟩ (by decide) (by decide),
   (C2_orphan_drop 20 sC2 ⟨0, 0, 1, 0⟩).2.2 2
     ⟨⟨0, 0⟩, some (baseComp CKind.observer), mkBState "minecraft:observer"⟩
     (baseComp CKind.observer) (by decide) (by decide)⟩

/-! ## Claim C7: scheduler ordering -/
/-- C7 (confirmed): `scheduleBlockUpdate` appends an entry due at the
current clock plus the delay without dispatching anything; `tick` advances
the clock and dispatches exactly the entries of the queue snapshot taken at
call entry whose due time has been reached, in insertion order (a filter of
the queue), keeping the rest; entries enqueued by the callbacks land in the
new queue, not in the dispatched snapshot; and an entry scheduled with delay
0 is due at the very next tick, whose clock strictly exceeds the enqueue
clock. -/
theorem C7_scheduler :
    (∀ (s : Sim) (x y : Int) (d : Nat),
      scheduleBlockUpdate s x y d =
        { s with nextTickList := s.nextTickList ++ [⟨x, y, s.tickCount + d, 0⟩] })
    ∧ (∀ (f : Nat) (s : Sim),
        tick f s = List.foldl (fireEntry f)
          { s with
            tickCount := s.tickCount + 1,
            nextTickList := s.nextTickList.filter
              (fun t => decide (s.tickCount + 1 < t.time)) }
          (s.nextTickList.filter (fun t => decide (t.time ≤ s.tickCount + 1))))
    ∧ (∀ (s : Sim) (n : Nat),
        (s.nextTickList.filter (fun t => decide (t.time ≤ n))).Sublist
          s.nextTickList)
    ∧ (∀ (s : Sim) (x y : Int),
        (⟨x, y, s.tickCount, 0⟩ : TickEntry) ∈
          (scheduleBlockUpdate s x y 0).nextTickList.filter
            (fun t => decide (t.time ≤ (scheduleBlockUpdate s x y 0).tickCount + 1)) ∧
        s.tickCount < (scheduleBlockUpdate s x y 0).tickCount + 1) := by
  refine ⟨?_, ?_, ?_, ?_⟩
  · intro s x y d
    rfl
  · intro f s
    rfl
  · intro s n
    exact List.filter_sublist _
  · intro s x y
    constructor
    · simp [scheduleBlockUpdate, List.mem_filter]
    · simp [scheduleBlockUpdate]

/-! ## Claim C10: unregistered block kinds -/
/-- C10 (confirmed): `minecraft:obsidian` and `minecraft:bedrock` have no
registry entry; `createEntity` on any unregistered kind appends a record with
a position and a default `blockState` (rotation 0, powered false, power 0)
but no redstone component and invokes no callback; `getPower` sees such a
source as 0 from every direction; and `canPush` still treats obsidian and
bedrock as immovable through the `blockState` type string. -/
theorem C10_unregistered :
    (registryComp "minecraft:obsidian" = none ∧
      registryComp "minecraft:bedrock" = none)
    ∧ (∀ (f : Nat) (ty : String) (x y : Int) (s : Sim), registryComp ty = none →
        createEntity f ty x y s =
          ({ s with em := ⟨s.em.nextId + 1, s.em.entities ++
            [(s.em.nextId, ⟨⟨x, y⟩, none, ⟨ty, 0, false, 0, false, false, false⟩⟩)]⟩ },
            s.em.nextId))
    ∧ (∀ (s : Sim) (x y : Int) (d : Nat) (i : Int) (e : Entity),
        getBlockEntity s (x + (dirVec d).1) (y + (dirVec d).2) = some (i, e) →
        e.redstone = none → getPower s x y d = 0)
    ∧ (∀ b : BState,
        b.type = "minecraft:obsidian" ∨ b.type = "minecraft:bedrock" →
        isImmovableBS b = true)
    ∧ (∀ (s : Sim) (x y : Int) (dir : Nat) (i : Int) (e : Entity),
        getBlockEntity s (x + (dirVec dir).1) (y + (dirVec dir).2) = some (i, e) →
        isImmovableBS e.bs = true → canPush s x y dir = false) := by
  refine ⟨⟨by decide, by decide⟩, ?_, ?_, ?_, ?_⟩
  · intro f ty x y s h
    simp [createEntity, h, mkBState]
  · intro s x y d i e hfind hr
    simp [getPower, hfind, hr]
  · intro b hb
    rcases hb with h | h <;> simp [isImmovableBS, h]
  · intro s x y dir i e hfind him
    cases hcp : canPush s x y dir with
    | false => rfl
    | true =>
      exfalso
      simp only [canPush] at hcp
      rw [canPushAux_iff] at hcp
      obtain ⟨n, hn, hmov, hemp⟩ := hcp
      cases n with
      | zero =>
        simp only [Nat.cast_zero, mul_zero, add_zero] at hemp
        rw [hemp] at hfind
        cases hfind
      | succ n =>
        have h0 := hmov 0 (Nat.succ_pos n)
        simp [Nat.cast_zero, mul_zero, add_zero, movableAt, hfind, him] at h0

/-- Witness for C10 at concrete states: creating an obsidian record, probing
it for power from the north, its immovability, and a piston refusing to push
it. -/
theorem C10_unregistered_witness :
    createEntity 20 "minecraft:obsidian" 0 0 emptySim =
      ({ emptySim with em := ⟨emptySim.em.nextId + 1, emptySim.em.entities ++
        [(emptySim.em.nextId,
          ⟨⟨0, 0⟩, none, ⟨"minecraft:obsidian", 0, false, 0, false, false, false⟩⟩)]⟩ },
        emptySim.em.nextId) ∧
    getPower sObs 0 1 0 = 0 ∧
    isImmovableBS (mkBState "minecraft:obsidian") = true ∧
    canPush sObsPiston 0 0 1 = false :=
  ⟨C10_unregistered.2.1 20 "minecraft:obsidian" 0 0 emptySim (by decide),
   C10_unregistered.2.2.1 sObs 0 1 0 1
     ⟨⟨0, 0⟩, none, mkBState "minecraft:obsidian"⟩ (by decide) (by decide),
   C10_unregistered.2.2.2.1 (mkBState "minecraft:obsidian") (Or.inl rfl),
   C10_unregistered.2.2.2.2 sObsPiston 0 0 1 2
     ⟨⟨1, 0⟩, registryComp "minecraft:obsidian", mkBState "minecraft:obsidian"⟩
     (by decide) (by decide)⟩

/-! ## Component lookup after a mutate-and-notify step -/
theorem compById_setCompById (s : Sim) (i : Int) (g : RComp → RComp) :
    compById (setCompById s i g) i = (compById s i).map g := by
  unfold compById
  rw [entById_setCompById]
  cases h : entById s i with
  | none => rfl
  | some e => cases hr : e.redstone <;> simp [hr]

theorem compById_of_skel_eq {s' s : Sim} (h : skel s' = skel s) {i : Int}
    {c : RComp} (hc : compById s i = some c) :
    ∃ c', compById s' i = some c' ∧ eraseComp c' = eraseComp c := by
  have ht := entById_erase_of_skel_eq h i
  unfold compById at hc ⊢
  cases he : entById s i with
  | none => rw [he] at hc; cases hc
  | some e =>
    rw [he] at hc ht
    have hr : e.redstone = some c := hc
    cases he' : entById s' i with
    | none => rw [he'] at ht; simp at ht
    | some e2 =>
      rw [he'] at ht
      simp at ht
      obtain ⟨c', hr', hcc⟩ := eraseEnt_eq_comp ht hr
      refine ⟨c', ?_, hcc⟩
      simpa using hr'

theorem compById_of_pos {s : Sim} {i : Int} {e : Entity} {c : RComp}
    {x y : Int} (hnd : NodupIds s) (hfind : getBlockEntity s x y = some (i, e))
    (hr : e.redstone = some c) : compById s i = some c := by
  rw [compById_eq_proj, find?_pos_to_id hnd hfind]
  simpa using hr

/-- The shared shape of every `onScheduledTick` commit: mutate the component
of entity `i`, patch the `blockState` at the cell, then notify neighbors.
The resulting component of `i` is the mutated one, up to the fields the
cascade may rewrite. -/
theorem compById_after_mutate_notify (f : Nat) (s : Sim) (i : Int)
    (g : RComp → RComp) (gb : BState → BState) (x y : Int) {c : RComp}
    (hnd : NodupIds s) (hc : compById s i = some c) :
    ∃ c', compById (notifyNeighbors f
        (updateBlockStateAt (setCompById s i g) x y gb) x y) i = some c' ∧
      eraseComp c' = eraseComp (g c) := by
  have h1 : compById (setCompById s i g) i = some (g c) := by
    rw [compById_setCompById, hc]
    rfl
  have h2 : compById (updateBlockStateAt (setCompById s i g) x y gb) i =
      some (g c) := by
    rw [compById_updateBlockStateAt]
    exact h1
  have hnd2 : NodupIds (updateBlockStateAt (setCompById s i g) x y gb) := by
    unfold NodupIds
    rw [idsOf_updateBlockStateAt, idsOf_setCompById]
    exact hnd
  have hsk := skel_notifyNeighbors f _ x y hnd2
  exact compById_of_skel_eq hsk h2

theorem wireStep_eq_spec (s : Sim) (x y : Int) (acc : Int) (d : Nat)
    (hacc : 0 ≤ acc) : wireStep s x y acc d = max acc (specWireContrib s x y d) := by
  unfold wireStep specWireContrib
  cases hb : getBlockEntity s (x + (dirVec d).1) (y + (dirVec d).2) with
  | none =>
    simp only [hb]
    rw [max_eq_left hacc]
  | some pe =>
    obtain ⟨pi, pent⟩ := pe
    simp only [hb]
    cases hr : pent.redstone with
    | none =>
      simp only [hr]
      rw [max_eq_left hacc]
    | some c =>
      simp only [hr]
      by_cases hk : c.kind = CKind.dust
      · rw [if_pos hk, if_pos hk, ← max_assoc, max_eq_left hacc]
      · rw [if_neg hk, if_neg hk]

theorem wireStep_nonneg (s : Sim) (x y : Int) (acc : Int) (d : Nat)
    (hacc : 0 ≤ acc) : 0 ≤ wireStep s x y acc d := by
  unfold wireStep
  cases hb : getBlockEntity s (x + (dirVec d).1) (y + (dirVec d).2) with
  | none =>
    simp only [hb]
    exact hacc
  | some pe =>
    obtain ⟨pi, pent⟩ := pe
    simp only [hb]
    cases hr : pent.redstone with
    | none =>
      simp only [hr]
      exact hacc
    | some c =>
      simp only [hr]
      by_cases hk : c.kind = CKind.dust
      · rw [if_pos hk]
        exact le_trans hacc (le_max_left _ _)
      · rw [if_neg hk]
        exact le_trans hacc (le_max_left _ _)

/-- C8 (confirmed): the level a wire computes on a neighbor update is the
max over the four cardinal neighbors of the claim's contributions; the wire
commits (assignment, visual update, neighbor notification) exactly when the
new level differs from the current one, and returns the whole state
unchanged otherwise; and a wire's `powerOutput` is its current `powerLevel`
for every query direction. -/
theorem C8_wire_update :
    (∀ (s : Sim) (x y : Int),
      wireComputedLevel s x y =
        max (max (max (max 0 (specWireContrib s x y 0)) (specWireContrib s x y 1))
          (specWireContrib s x y 2)) (specWireContrib s x y 3))
    ∧ (∀ (f : Nat) (s : Sim) (i : Int) (e : Entity) (c : RComp) (x y fx fy : Int),
        getBlockEntity s x y = some (i, e) → e.redstone = some c →
        c.kind = CKind.dust →
        (wireComputedLevel s x y = c.powerLevel →
          onNeighborPos (Nat.succ f) s x y fx fy = s) ∧
        (wireComputedLevel s x y ≠ c.powerLevel →
          onNeighborPos (Nat.succ f) s x y fx fy =
            notifyNeighbors f (updateBlockStateAt (setCompById s i
              (fun cc => { cc with powerLevel := wireComputedLevel s x y })) x y
              (fun b => { b with powerLevel := wireComputedLevel s x y })) x y))
    ∧ (∀ (s : Sim) (c : RComp) (x y : Int) (d : Nat), c.kind = CKind.dust →
        getPowerOutput s c x y d = c.powerLevel) := by
  refine ⟨?_, ?_, ?_⟩
  · intro s x y
    unfold wireComputedLevel
    have h0 : (0 : Int) ≤ 0 := le_refl 0
    have h1 := wireStep_nonneg s x y 0 0 h0
    have h2 := wireStep_nonneg s x y _ 1 h1
    have h3 := wireStep_nonneg s x y _ 2 h2
    rw [wireStep_eq_spec s x y _ 3 h3, wireStep_eq_spec s x y _ 2 h2,
      wireStep_eq_spec s x y _ 1 h1, wireStep_eq_spec s x y 0 0 h0]
  · intro f s i e c x y fx fy hfind hr hk
    constructor
    · intro heq
      rw [onNeighborPos_succ_comp f fx fy hfind hr]
      simp only [onNeighborComp, hk]
      rw [if_pos heq]
    · intro hne
      rw [onNeighborPos_succ_comp f fx fy hfind hr]
      simp only [onNeighborComp, hk]
      rw [if_neg hne]
  · intro s c x y d hk
    simp [getPowerOutput, hk]

/-- Witness for C8 at a concrete wire: a fresh dust at the origin with a
redstone block east and a level-4 dust south computes level 15 (the claim's
max identity holds), commits because 15 differs from its current 0, and its
output equals its level in every direction. -/
theorem C8_wire_update_witness :
    wireComputedLevel sC8 0 0 =
      max (max (max (max 0 (specWireContrib sC8 0 0 0)) (specWireContrib sC8 0 0 1))
        (specWireContrib sC8 0 0 2)) (specWireContrib sC8 0 0 3) ∧
    wireComputedLevel sC8 0 0 = 15 ∧
    onNeighborPos (Nat.succ 20) sC8 0 0 5 5 =
      notifyNeighbors 20 (updateBlockStateAt (setCompById sC8 1
        (fun cc => { cc with powerLevel := wireComputedLevel sC8 0 0 })) 0 0
        (fun b => { b with powerLevel := wireComputedLevel sC8 0 0 })) 0 0 ∧
    getPowerOutput sC8 (baseComp CKind.dust) 0 0 3 =
      (baseComp CKind.dust).powerLevel :=
  ⟨C8_wire_update.1 sC8 0 0, by decide,
   (C8_wire_update.2.1 20 sC8 1
     ⟨⟨0, 0⟩, registryComp "minecraft:redstone_dust",
       mkBState "minecraft:redstone_dust"⟩
     (baseComp CKind.dust) 0 0 5 5 (by decide) (by decide) (by decide)).2
     (by decide),
   C8_wire_update.2.2 sC8 (baseComp CKind.dust) 0 0 3 (by decide)⟩

/-! ## Claim C9: comparator output -/
/-- C9 (confirmed): on a comparator's scheduled tick, with `rearPower` the
rear input and `sidePower` the max of the two side inputs, the component's
stored output after the tick is `max 0 (rear - side)` in subtract mode and
`rear` when `rear ≥ side` (else 0) in compare mode; in particular rear =
side in compare mode yields the rear value. -/
theorem C9_comparator :
    ∀ (f : Nat) (s : Sim) (i : Int) (e : Entity) (c : RComp) (x y : Int),
      NodupIds s →
      getBlockEntity s x y = some (i, e) →
      e.redstone = some c → c.kind = CKind.comparator →
      ∃ c', compById (onScheduledTickComp f s i c x y) i = some c' ∧
        c'.outputPower =
          (if c.mode = "subtract" then
            max 0 (getPower s x y ((rotOf s x y + 2) % 4) -
              max (getPower s x y ((rotOf s x y + 3) % 4))
                (getPower s x y ((rotOf s x y + 1) % 4)))
          else if getPower s x y ((rotOf s x y + 2) % 4) ≥
              max (getPower s x y ((rotOf s x y + 3) % 4))
                (getPower s x y ((rotOf s x y + 1) % 4)) then
            getPower s x y ((rotOf s x y + 2) % 4)
          else 0) ∧
        (c.mode ≠ "subtract" →
          getPower s x y ((rotOf s x y + 2) % 4) =
            max (getPower s x y ((rotOf s x y + 3) % 4))
              (getPower s x y ((rotOf s x y + 1) % 4)) →
          c'.outputPower = getPower s x y ((rotOf s x y + 2) % 4)) := by
  intro f s i e c x y hnd hfind hr hk
  have hcby : compById s i = some c := compById_of_pos hnd hfind hr
  simp only [onScheduledTickComp, hk]
  set newP : Int :=
    (if c.mode = "subtract" then
      max 0 (getPower s x y ((rotOf s x y + 2) % 4) -
        max (getPower s x y ((rotOf s x y + 3) % 4))
          (getPower s x y ((rotOf s x y + 1) % 4)))
    else if getPower s x y ((rotOf s x y + 2) % 4) ≥
        max (getPower s x y ((rotOf s x y + 3) % 4))
          (getPower s x y ((rotOf s x y + 1) % 4)) then
      getPower s x y ((rotOf s x y + 2) % 4)
    else 0) with hnewP
  have hpart : ∀ c' : RComp, c'.outputPower = newP →
      (c.mode ≠ "subtract" →
        getPower s x y ((rotOf s x y + 2) % 4) =
          max (getPower s x y ((rotOf s x y + 3) % 4))
            (getPower s x y ((rotOf s x y + 1) % 4)) →
        c'.outputPower = getPower s x y ((rotOf s x y + 2) % 4)) := by
    intro c' hcp hm hrs
    rw [hcp, hnewP, if_neg hm, if_pos (ge_of_eq hrs)]
  by_cases hout : c.outputPower = newP
  · rw [if_pos hout]
    exact ⟨c, hcby, hout, hpart c hout⟩
  · rw [if_neg hout]
    obtain ⟨c', hc', herase⟩ :=
      compById_after_mutate_notify f s i
        (fun cc => { cc with outputPower := newP, powerLevel := newP })
        (fun b => { b with
          type := if 0 < newP then "minecraft:comparator_on"
            else "minecraft:comparator",
          powerLevel := newP }) x y hnd hcby
    have hop : c'.outputPower = newP := erase_eq_outputPower herase
    exact ⟨c', hc', hop, hpart c' hop⟩

/-- Witness for C9 at a concrete comparator: an east-facing subtract-mode
comparator with rear 15 (redstone block) and best side 4 (dust) outputs
`max 0 (15 - 4) = 11` after its scheduled tick. -/
theorem C9_comparator_witness :
    NodupIds sC9 ∧
    ∃ c', compById (onScheduledTickComp 20 sC9 1
        { baseComp CKind.comparator with mode := "subtract" } 0 0) 1 = some c' ∧
      c'.outputPower = 11 := by
  have h := C9_comparator 20 sC9 1 (compEntR 0 0 1 "subtract")
    { baseComp CKind.comparator with mode := "subtract" } 0 0
    (by decide) (by decide) (by decide) (by decide)
  obtain ⟨c', hc', hout, _⟩ := h
  refine ⟨by decide, c', hc', ?_⟩
  rw [hout]
  decide

/-! ## Invariance of power queries under a lock-flag write -/
theorem find?_cons_pos {α : Type} (p : α → Bool) (a : α) (l : List α)
    (h : p a = true) : (a :: l).find? p = some a := by
  rw [List.find?_cons, h]

theorem find?_cons_neg {α : Type} (p : α → Bool) (a : α) (l : List α)
    (h : p a = false) : (a :: l).find? p = l.find? p := by
  rw [List.find?_cons, h]

theorem find?_modFirst_rel (p q : Int × Entity → Bool) (gE : Entity → Entity)
    (hq : ∀ a : Int × Entity, q (a.1, gE a.2) = q a) :
    ∀ l : List (Int × Entity),
      ((modFirst p gE l).find? q = none ∧ l.find? q = none) ∨
      ∃ a, l.find? q = some a ∧
        ((modFirst p gE l).find? q = some a ∨
          (modFirst p gE l).find? q = some (a.1, gE a.2)) := by
  intro l
  induction l with
  | nil => left; exact ⟨rfl, rfl⟩
  | cons hd t ih =>
    by_cases hp : p hd = true
    · simp only [modFirst, hp, if_true]
      by_cases hqh : q hd = true
      · right
        refine ⟨hd, find?_cons_pos q hd t hqh, Or.inr ?_⟩
        exact find?_cons_pos q (hd.1, gE hd.2) t (by rw [hq hd]; exact hqh)
      · have hqh' : q hd = false := by simpa using hqh
        have hq2 : q (hd.1, gE hd.2) = false := by rw [hq hd]; exact hqh'
        rw [find?_cons_neg q _ t hq2, find?_cons_neg q hd t hqh']
        cases hft : t.find? q with
        | none => left; exact ⟨rfl, rfl⟩
        | some a => right; exact ⟨a, rfl, Or.inl rfl⟩
    · have hp' : p hd = false := by simpa using hp
      simp only [modFirst, hp', Bool.false_eq_true, if_false]
      by_cases hqh : q hd = true
      · right
        exact ⟨hd, find?_cons_pos q hd t hqh,
          Or.inl (find?_cons_pos q hd _ hqh)⟩
      · have hqh' : q hd = false := by simpa using hqh
        rw [find?_cons_neg q hd _ hqh', find?_cons_neg q hd t hqh']
        exact ih

theorem getBlockEntity_modFirst_rel (s : Sim) (p : Int × Entity → Bool)
    (gE : Entity → Entity) (hpos : ∀ e, (gE e).pos = e.pos) (x y : Int) :
    (getBlockEntity (withEntities s (modFirst p gE s.em.entities)) x y = none ∧
      getBlockEntity s x y = none) ∨
    ∃ a, getBlockEntity s x y = some a ∧
      (getBlockEntity (withEntities s (modFirst p gE s.em.entities)) x y = some a ∨
        getBlockEntity (withEntities s (modFirst p gE s.em.entities)) x y =
          some (a.1, gE a.2)) := by
  unfold getBlockEntity withEntities
  exact find?_modFirst_rel p _ gE (fun a => by rw [hpos a.2]) s.em.entities

theorem rotOf_setCompById (s : Sim) (j : Int) (g : RComp → RComp) (x y : Int) :
    rotOf (setCompById s j g) x y = rotOf s x y := by
  have hrel := getBlockEntity_modFirst_rel s (fun pe => pe.1 == j)
    (fun e => { e with redstone := e.redstone.map g }) (fun e => rfl) x y
  unfold rotOf
  rcases hrel with ⟨h1, h2⟩ | ⟨a, ha, h1 | h1⟩
  · rw [show getBlockEntity (setCompById s j g) x y = _ from h1, h2]
  · rw [show getBlockEntity (setCompById s j g) x y = _ from h1, ha]
  · rw [show getBlockEntity (setCompById s j g) x y = _ from h1, ha]

theorem getPowerOutput_rotInv {s' s : Sim} (c : RComp) (x y : Int) (d : Nat)
    (hrot : rotOf s' x y = rotOf s x y) :
    getPowerOutput s' c x y d = getPowerOutput s c x y d := by
  cases hk : c.kind <;> simp [getPowerOutput, hk, hrot]

theorem getPowerOutput_setLocked (s : Sim) (c : RComp) (lk : Bool)
    (x y : Int) (d : Nat) :
    getPowerOutput s { c with locked := lk } x y d = getPowerOutput s c x y d := by
  cases hk : c.kind <;> simp [getPowerOutput, hk]

theorem getPower_setCompById_locked (s : Sim) (j : Int) (lk : Bool)
    (x y : Int) (d : Nat) :
    getPower (setCompById s j (fun cc => { cc with locked := lk })) x y d =
      getPower s x y d := by
  have hrot : ∀ a b : Int, rotOf (setCompById s j
      (fun cc => { cc with locked := lk })) a b = rotOf s a b :=
    fun a b => rotOf_setCompById s j _ a b
  have hrel := getBlockEntity_modFirst_rel s (fun pe => pe.1 == j)
    (fun e => { e with redstone := e.redstone.map (fun cc => { cc with locked := lk }) })
    (fun e => rfl) (x + (dirVec d).1) (y + (dirVec d).2)
  simp only [getPower]
  rcases hrel with ⟨h1, h2⟩ | ⟨a, ha, h1 | h1⟩
  · have hA : getBlockEntity (setCompById s j (fun cc => { cc with locked := lk }))
        (x + (dirVec d).1) (y + (dirVec d).2) = none := h1
    rw [hA, h2]
  · have hA : getBlockEntity (setCompById s j (fun cc => { cc with locked := lk }))
        (x + (dirVec d).1) (y + (dirVec d).2) = some a := h1
    rw [hA, ha]
    obtain ⟨ai, ae⟩ := a
    simp only []
    cases hr : ae.redstone with
    | none => rfl
    | some c =>
      exact getPowerOutput_rotInv c _ _ _ (hrot _ _)
  · have hA : getBlockEntity (setCompById s j (fun cc => { cc with locked := lk }))
        (x + (dirVec d).1) (y + (dirVec d).2) =
        some (a.1, { a.2 with redstone := a.2.redstone.map (fun cc => { cc with locked := lk }) }) := h1
    rw [hA, ha]
    obtain ⟨ai, ae⟩ := a
    simp only []
    cases hr : ae.redstone with
    | none => simp [hr]
    | some c =>
      simp only [hr, Option.map_some]
      rw [getPowerOutput_setLocked]
      exact getPowerOutput_rotInv c _ _ _ (hrot _ _)

/-- C4 (amended): a torch's attachment direction is the opposite of the
cardinal indexed by its rotation (0 = S, 1 = W, 2 = N, 3 = E); after a
scheduled reevaluation the torch is off (power 0) iff `getPower` from that
attachment direction is positive (and its level is exactly 0 or 15 when it
was 0 or 15 before); and `powerOutput` is 0 toward the attachment direction
and the current `powerLevel` toward every other direction. -/
theorem C4_torch :
    (∀ r : Nat, r < 4 → torchAttachDir r = dirOpp r)
    ∧ (∀ (f : Nat) (s : Sim) (i : Int) (e : Entity) (c : RComp) (x y : Int),
        NodupIds s →
        getBlockEntity s x y = some (i, e) →
        e.redstone = some c → c.kind = CKind.torch →
        ∃ c', compById (onScheduledTickComp f s i c x y) i = some c' ∧
          ((c'.powerLevel = 0) ↔
            0 < getPower s x y (torchAttachDir (rotOf s x y))) ∧
          (c.powerLevel = 0 ∨ c.powerLevel = 15 →
            c'.powerLevel =
              if 0 < getPower s x y (torchAttachDir (rotOf s x y)) then 0 else 15))
    ∧ (∀ (s : Sim) (c : RComp) (x y : Int) (d : Nat), c.kind = CKind.torch →
        getPowerOutput s c x y d =
          if d = torchAttachDir (rotOf s x y) then 0 else c.powerLevel) := by
  refine ⟨by decide, ?_, ?_⟩
  · intro f s i e c x y hnd hfind hr hk
    have hcby : compById s i = some c := compById_of_pos hnd hfind hr
    have hkind : c.kind ≠ CKind.dust := by rw [hk]; intro hcon; cases hcon
    by_cases hip : 0 < getPower s x y (torchAttachDir (rotOf s x y)) <;>
      by_cases h0 : c.powerLevel = 0
    · -- powered from the attachment, already off: no change
      have hd : onScheduledTickComp f s i c x y = s := by
        simp only [onScheduledTickComp, hk]
        simp [hip, h0]
      rw [hd]
      refine ⟨c, hcby, iff_of_true h0 hip, fun _ => ?_⟩
      rw [h0, if_pos hip]
    · -- powered from the attachment, currently lit: extinguish
      have hd : onScheduledTickComp f s i c x y =
          notifyNeighbors f (updateBlockStateAt (setCompById s i
            (fun cc => { cc with powerLevel := 0 })) x y
            (fun b => { b with type := "minecraft:redstone_torch_off" })) x y := by
        simp only [onScheduledTickComp, hk]
        simp [hip, h0]
      rw [hd]
      obtain ⟨c', hc', herase⟩ := compById_after_mutate_notify f s i
        (fun cc => { cc with powerLevel := 0 })
        (fun b => { b with type := "minecraft:redstone_torch_off" }) x y hnd hcby
      have hpl : c'.powerLevel = 0 := erase_eq_powerLevel herase hkind
      refine ⟨c', hc', iff_of_true hpl hip, fun _ => ?_⟩
      rw [hpl, if_pos hip]
    · -- unpowered, currently off: ignite
      have hd : onScheduledTickComp f s i c x y =
          notifyNeighbors f (updateBlockStateAt (setCompById s i
            (fun cc => { cc with powerLevel := 15 })) x y
            (fun b => { b with type := "minecraft:redstone_torch" })) x y := by
        simp only [onScheduledTickComp, hk]
        simp [hip, h0]
      rw [hd]
      obtain ⟨c', hc', herase⟩ := compById_after_mutate_notify f s i
        (fun cc => { cc with powerLevel := 15 })
        (fun b => { b with type := "minecraft:redstone_torch" }) x y hnd hcby
      have hpl : c'.powerLevel = 15 := erase_eq_powerLevel herase hkind
      refine ⟨c', hc', iff_of_false (by rw [hpl]; norm_num) hip, fun _ => ?_⟩
      rw [hpl, if_neg hip]
    · -- unpowered, currently lit: no change
      have hd : onScheduledTickComp f s i c x y = s := by
        simp only [onScheduledTickComp, hk]
        simp [hip, h0]
      rw [hd]
      refine ⟨c, hcby, iff_of_false h0 hip, fun h15 => ?_⟩
      rw [if_neg hip]
      rcases h15 with h | h
      · exact absurd h h0
      · exact h
  · intro s c x y d hk
    simp [getPowerOutput, hk]

/-- C4 counterexample: a torch with rotation 0 and a redstone block to its
north.  Under the claim's reading (rotation 0 attaches north) the torch
reads 15 from its attachment and must end off with power 0; the source
attaches it south, reads 0 there, and leaves the torch lit at 15 after its
scheduled reevaluation. -/
theorem C4_counterexample :
    (getBlockEntity sC4 0 0).map Prod.fst = some 1 ∧
    getPower sC4 0 0 0 = 15 ∧
    (compById sC4 1).map RComp.powerLevel = some 15 ∧
    (getBlockEntity sC4 0 0).map (fun pe => pe.2.bs.type) =
      some "minecraft:redstone_torch" := by
  decide

/-- Witness for C4 at a concrete torch: rotation 0 attaches south; with a
redstone block on the south side the reevaluated torch ends off. -/
theorem C4_torch_witness :
    torchAttachDir 0 = dirOpp 0 ∧
    (∃ c', compById (onScheduledTickComp 20 sC4w 1 (baseComp CKind.torch) 0 0) 1 =
        some c' ∧
      ((c'.powerLevel = 0) ↔
        0 < getPower sC4w 0 0 (torchAttachDir (rotOf sC4w 0 0))) ∧
      ((baseComp CKind.torch).powerLevel = 0 ∨
        (baseComp CKind.torch).powerLevel = 15 →
        c'.powerLevel =
          if 0 < getPower sC4w 0 0 (torchAttachDir (rotOf sC4w 0 0)) then 0
          else 15)) ∧
    getPowerOutput sC4w (baseComp CKind.torch) 0 0 2 =
      (if (2 : Nat) = torchAttachDir (rotOf sC4w 0 0) then 0
        else (baseComp CKind.torch).powerLevel) :=
  ⟨C4_torch.1 0 (by decide),
   C4_torch.2.1 20 sC4w 1 (torchEnt 0 0) (baseComp CKind.torch) 0 0
     (by decide) (by decide) (by decide) (by decide),
   C4_torch.2.2 sC4w (baseComp CKind.torch) 0 0 2 (by decide)⟩

/-- C6 (amended): on a neighbor update an unlocked repeater schedules a
transition `delay * 2` ticks ahead exactly when the desired powered state
(rear power positive) differs from the current one, mutating only its lock
flag otherwise; but the scheduled callback, after recomputing the desired
state at fire time, commits unconditionally when unlocked — it assigns
`powered`/`powerLevel`, rewrites the visual tag and notifies the neighbors
even when the recomputed state equals the current one. -/
theorem C6_repeater :
    (∀ (f : Nat) (s : Sim) (i : Int) (e : Entity) (c : RComp) (x y fx fy : Int),
      getBlockEntity s x y = some (i, e) → e.redstone = some c →
      c.kind = CKind.repeater →
      ¬(0 < getRepeaterInput s x y ((rotOf s x y + 3) % 4)) →
      ¬(0 < getRepeaterInput s x y ((rotOf s x y + 1) % 4)) →
      (decide (0 < getPower s x y ((rotOf s x y + 2) % 4)) ≠ c.powered →
        onNeighborPos (Nat.succ f) s x y fx fy =
          scheduleBlockUpdate
            (setCompById s i (fun cc => { cc with locked := false })) x y
            (c.delay * 2)) ∧
      (decide (0 < getPower s x y ((rotOf s x y + 2) % 4)) = c.powered →
        onNeighborPos (Nat.succ f) s x y fx fy =
          setCompById s i (fun cc => { cc with locked := false })))
    ∧ (∀ (f : Nat) (s : Sim) (i : Int) (e : Entity) (c : RComp) (x y : Int),
        NodupIds s →
        getBlockEntity s x y = some (i, e) → e.redstone = some c →
        c.kind = CKind.repeater → c.locked = false →
        onScheduledTickComp f s i c x y =
          notifyNeighbors f (updateBlockStateAt (setCompById s i
            (fun cc => { cc with
              powered := decide (0 < getPower s x y ((rotOf s x y + 2) % 4)),
              powerLevel :=
                if decide (0 < getPower s x y ((rotOf s x y + 2) % 4)) then 15
                else 0 })) x y
            (fun b => { b with
              type :=
                if decide (0 < getPower s x y ((rotOf s x y + 2) % 4)) then
                  "minecraft:repeater_on"
                else "minecraft:repeater",
              powered := decide (0 < getPower s x y ((rotOf s x y + 2) % 4)) }))
            x y ∧
        ∃ c', compById (onScheduledTickComp f s i c x y) i = some c' ∧
          c'.powered = decide (0 < getPower s x y ((rotOf s x y + 2) % 4)) ∧
          c'.powerLevel =
            (if 0 < getPower s x y ((rotOf s x y + 2) % 4) then (15 : Int)
              else 0)) := by
  constructor
  · intro f s i e c x y fx fy hfind hr hk hl1 hl2
    rw [onNeighborPos_succ_comp f fx fy hfind hr]
    simp only [onNeighborComp, hk, repeaterNU]
    have hlk : (decide (0 < getRepeaterInput s x y ((rotOf s x y + 3) % 4)) ||
        decide (0 < getRepeaterInput s x y ((rotOf s x y + 1) % 4))) = false := by
      simp [hl1, hl2]
    simp only [hlk, Bool.false_eq_true, if_false]
    rw [getPower_setCompById_locked]
    constructor
    · intro hne
      rw [if_neg hne]
    · intro heq
      rw [if_pos heq]
  · intro f s i e c x y hnd hfind hr hk hlocked
    have hcby : compById s i = some c := compById_of_pos hnd hfind hr
    have hkind : c.kind ≠ CKind.dust := by rw [hk]; intro hcon; cases hcon
    have hd : onScheduledTickComp f s i c x y =
        notifyNeighbors f (updateBlockStateAt (setCompById s i
          (fun cc => { cc with
            powered := decide (0 < getPower s x y ((rotOf s x y + 2) % 4)),
            powerLevel :=
              if decide (0 < getPower s x y ((rotOf s x y + 2) % 4)) then 15
              else 0 })) x y
          (fun b => { b with
            type :=
              if decide (0 < getPower s x y ((rotOf s x y + 2) % 4)) then
                "minecraft:repeater_on"
              else "minecraft:repeater",
            powered := decide (0 < getPower s x y ((rotOf s x y + 2) % 4)) }))
          x y := by
      simp only [onScheduledTickComp, hk, hlocked, Bool.false_eq_true, if_false]
    refine ⟨hd, ?_⟩
    rw [hd]
    obtain ⟨c', hc', herase⟩ := compById_after_mutate_notify f s i _ _ x y hnd hcby
    refine ⟨c', hc', ?_, ?_⟩
    · rw [erase_eq_powered herase]
    · rw [erase_eq_powerLevel herase hkind]
      by_cases hp : 0 < getPower s x y ((rotOf s x y + 2) % 4)
      · simp [hp]
      · simp [hp]

/-- C6 counterexample: an unlocked repeater whose recomputed desired state
equals its current one (rear power 0, `powered = false`) fires a pending
scheduled entry.  The claim says nothing is mutated and no neighbor is
notified; the source notifies anyway, so the observer watching the repeater
schedules a pulse and ends powered two ticks later. -/
theorem C6_counterexample :
    (compById sC6pre 1).map (fun c => (c.powered, c.locked)) =
      some (false, false) ∧
    getPower sC6pre 1 0 2 = 0 ∧
    sC6pre.nextTickList = [⟨1, 0, 1, 0⟩] ∧
    sC6.nextTickList = [⟨1, 1, 3, 0⟩] ∧
    (compById (tick 20 (tick 20 sC6)) 2).map RComp.powerLevel = some 15 := by
  decide

/-- Witness for C6 at concrete repeaters: the rear-powered one schedules a
`delay * 2` update, and the idle one's scheduled callback sets its component
to the recomputed state. -/
theorem C6_repeater_witness :
    (onNeighborPos (Nat.succ 20) sC6w 1 0 9 9 =
      scheduleBlockUpdate
        (setCompById sC6w 1 (fun cc => { cc with locked := false })) 1 0
        ((baseComp CKind.repeater).delay * 2)) ∧
    ∃ c', compById (onScheduledTickComp 20 sC6pre 1
        (baseComp CKind.repeater) 1 0) 1 = some c' ∧
      c'.powered = false ∧ c'.powerLevel = 0 := by
  constructor
  · exact (C6_repeater.1 20 sC6w 1 (repEntR 1 0 0) (baseComp CKind.repeater)
      1 0 9 9 (by decide) (by decide) (by decide) (by decide) (by decide)).1
      (by decide)
  · obtain ⟨hd, c', hc', hpow, hlvl⟩ := C6_repeater.2 20 sC6pre 1
      ⟨⟨1, 0⟩, some (baseComp CKind.repeater), mkBState "minecraft:repeater"⟩
      (baseComp CKind.repeater) 1 0 (by decide) (by decide) (by decide)
      (by decide) (by decide)
    refine ⟨c', hc', ?_, ?_⟩
    · rw [hpow]
      decide
    · rw [hlvl]
      have h0 : ¬(0 < getPower sC6pre 1 0 ((rotOf sC6pre 1 0 + 2) % 4)) := by
        decide
      rw [if_neg h0]

/-! ## Claim C3: the placement facade -/
theorem posList_of_skel_eq {s' s : Sim} (h : skel s' = skel s) :
    posList s' = posList s := by
  have h5 := congrArg (fun q => q.2.2.2.2.map (fun pe => pe.2.pos)) h
  simpa [skel, posList, List.map_map, Function.comp, eraseEnt_pos] using h5

theorem skel_onNeighborComp (f : Nat) {s : Sim} {i : Int} {e : Entity}
    {c : RComp} (x y fx fy : Int) (hnd : NodupIds s)
    (hmem : (i, e) ∈ s.em.entities) (hr : e.redstone = some c) :
    skel (onNeighborComp f s i c x y fx fy) = skel s := by
  cases hk : c.kind with
  | dust =>
    simp only [onNeighborComp, hk]
    split
    · rfl
    · have h1 := skel_setCompById_dustLevel hnd hmem hr hk (wireComputedLevel s x y)
      have h2 := skel_updateBlockStateAt_powerLevel
        (setCompById s i (fun cc =>
          { cc with powerLevel := wireComputedLevel s x y })) x y
        (wireComputedLevel s x y)
      have h12 := h2.trans h1
      rw [skel_notifyNeighbors f _ x y (nodupIds_of_skel_eq h12 hnd), h12]
  | torch => simp only [onNeighborComp, hk]; exact skel_scheduleBlockUpdate s x y 2
  | repeater => simp only [onNeighborComp, hk]; exact skel_repeaterNU s i c x y
  | comparator => simp only [onNeighborComp, hk]; exact skel_scheduleBlockUpdate s x y 0
  | observer => simp only [onNeighborComp, hk]; exact skel_observerNU s x y fx fy
  | piston => simp only [onNeighborComp, hk]; exact skel_pistonNU s c x y
  | lever => simp only [onNeighborComp, hk]
  | button => simp only [onNeighborComp, hk]
  | pistonHead => simp only [onNeighborComp, hk]
  | redstoneBlock => simp only [onNeighborComp, hk]
  | stone => simp only [onNeighborComp, hk]

theorem skel_onPlacedComp (f : Nat) {s : Sim} {i : Int} {e : Entity}
    {c : RComp} (x y : Int) (hnd : NodupIds s)
    (hmem : (i, e) ∈ s.em.entities) (hr : e.redstone = some c) :
    skel (onPlacedComp f s i c x y) = skel s := by
  cases hk : c.kind with
  | torch => simp only [onPlacedComp, hk]; exact skel_scheduleBlockUpdate s x y 2
  | dust =>
    simp only [onPlacedComp, hk]
    have := skel_onNeighborComp f x y x y hnd hmem hr
    rw [hk] at *
    exact this
  | lever => simp only [onPlacedComp, hk]; exact skel_onNeighborComp f x y x y hnd hmem hr
  | button => simp only [onPlacedComp, hk]; exact skel_onNeighborComp f x y x y hnd hmem hr
  | repeater => simp only [onPlacedComp, hk]; exact skel_onNeighborComp f x y x y hnd hmem hr
  | comparator => simp only [onPlacedComp, hk]; exact skel_onNeighborComp f x y x y hnd hmem hr
  | observer => simp only [onPlacedComp, hk]; exact skel_onNeighborComp f x y x y hnd hmem hr
  | piston => simp only [onPlacedComp, hk]; exact skel_onNeighborComp f x y x y hnd hmem hr
  | pistonHead => simp only [onPlacedComp, hk]; exact skel_onNeighborComp f x y x y hnd hmem hr
  | redstoneBlock => simp only [onPlacedComp, hk]; exact skel_onNeighborComp f x y x y hnd hmem hr
  | stone => simp only [onPlacedComp, hk]; exact skel_onNeighborComp f x y x y hnd hmem hr

theorem nodupIds_remove {s : Sim} (j : Int) (hnd : NodupIds s) :
    NodupIds (removeEntityById s j) := by
  unfold NodupIds idsOf removeEntityById withEntities at *
  simp only []
  exact ((List.filter_sublist s.em.entities).map Prod.fst).nodup hnd

theorem posList_setCompById (s : Sim) (i : Int) (g : RComp → RComp) :
    posList (setCompById s i g) = posList s := by
  unfold posList setCompById withEntities
  simp only []
  exact modFirst_map_eq _ _ _ s.em.entities (fun a _ _ => rfl)

theorem posList_updateBlockStateAt (s : Sim) (x y : Int) (g : BState → BState) :
    posList (updateBlockStateAt s x y g) = posList s := by
  unfold posList updateBlockStateAt withEntities
  simp only []
  exact modFirst_map_eq _ _ _ s.em.entities (fun a _ _ => rfl)

theorem mutate_notify_store (f : Nat) (s : Sim) (i : Int) (g : RComp → RComp)
    (gb : BState → BState) (x y : Int) (hnd : NodupIds s) :
    idsOf (notifyNeighbors f (updateBlockStateAt (setCompById s i g) x y gb)
      x y) = idsOf s ∧
    (notifyNeighbors f (updateBlockStateAt (setCompById s i g) x y gb)
      x y).em.nextId = s.em.nextId ∧
    posList (notifyNeighbors f (updateBlockStateAt (setCompById s i g) x y gb)
      x y) = posList s := by
  have hnd2 : NodupIds (updateBlockStateAt (setCompById s i g) x y gb) := by
    unfold NodupIds
    rw [idsOf_updateBlockStateAt, idsOf_setCompById]
    exact hnd
  have hsk := skel_notifyNeighbors f _ x y hnd2
  refine ⟨?_, ?_, ?_⟩
  · rw [idsOf_of_skel_eq hsk, idsOf_updateBlockStateAt, idsOf_setCompById]
  · rw [skel_eq_nextId hsk]
    rfl
  · rw [posList_of_skel_eq hsk, posList_updateBlockStateAt, posList_setCompById]

theorem leverToggle_store (f : Nat) (s : Sim) (i : Int) (c : RComp)
    (x y : Int) (hnd : NodupIds s) :
    idsOf (leverToggle f s i c x y) = idsOf s ∧
    (leverToggle f s i c x y).em.nextId = s.em.nextId ∧
    posList (leverToggle f s i c x y) = posList s := by
  unfold leverToggle
  simp only []
  exact mutate_notify_store f s i _ _ x y hnd

theorem buttonPress_store (f : Nat) (s : Sim) (i : Int) (c : RComp)
    (x y : Int) (hnd : NodupIds s) :
    idsOf (buttonPress f s i c x y) = idsOf s ∧
    (buttonPress f s i c x y).em.nextId = s.em.nextId ∧
    posList (buttonPress f s i c x y) = posList s := by
  unfold buttonPress
  simp only []
  by_cases hpl : c.powerLevel = 0
  · rw [if_pos hpl]
    exact mutate_notify_store f s i _ _ x y hnd
  · rw [if_neg hpl]
    exact ⟨rfl, rfl, rfl⟩

/-- The five outcomes of `placeOrInteract`: a no-op, an erase, a placement on
an empty cell, a lever toggle or a button press. -/
theorem placeOrInteract_cases (f : Nat) (ty : String) (x y : Int) (s : Sim) :
    placeOrInteract f ty x y s = s ∨
    (ty = "erase" ∧ ∃ i, placeOrInteract f ty x y s =
      notifyNeighbors f (removeEntityById s i) x y) ∨
    (ty ≠ "erase" ∧ getBlockEntity s x y = none ∧
      placeOrInteract f ty x y s = (createEntity f ty x y s).1) ∨
    (ty ≠ "erase" ∧ (getBlockEntity s x y).isSome = true ∧
      ∃ i c, placeOrInteract f ty x y s = leverToggle f s i c x y) ∨
    (ty ≠ "erase" ∧ (getBlockEntity s x y).isSome = true ∧
      ∃ i c, placeOrInteract f ty x y s = buttonPress f s i c x y) := by
  unfold placeOrInteract
  by_cases hb : x < 0 ∨ (s.width : Int) ≤ x ∨ y < 0 ∨ (s.height : Int) ≤ y
  · rw [if_pos hb]
    exact Or.inl rfl
  · rw [if_neg hb]
    split
    · rename_i hemp
      by_cases hty : ty = "erase"
      · rw [if_pos hty]
        exact Or.inl rfl
      · rw [if_neg hty]
        exact Or.inr (Or.inr (Or.inl ⟨hty, hemp, rfl⟩))
    · rename_i i e hocc2
      by_cases hty : ty = "erase"
      · rw [if_pos hty]
        exact Or.inr (Or.inl ⟨hty, i, rfl⟩)
      · rw [if_neg hty]
        split
        · exact Or.inl rfl
        · rename_i c hr
          by_cases hl : e.bs.type = "minecraft:lever"
          · rw [if_pos hl]
            exact Or.inr (Or.inr (Or.inr (Or.inl
              ⟨hty, by rw [hocc2]; rfl, i, c, rfl⟩)))
          · rw [if_neg hl]
            by_cases hbn : e.bs.type = "minecraft:button"
            · rw [if_pos hbn]
              exact Or.inr (Or.inr (Or.inr (Or.inr
                ⟨hty, by rw [hocc2]; rfl, i, c, rfl⟩)))
            · rw [if_neg hbn]
              exact Or.inl rfl

/-- A placement on an empty in-bounds cell appends one record at the empty
cell, so pairwise-distinct positions are preserved (through the `onPlaced`
cascade of a registered kind). -/
theorem createEntity_pairwise (f : Nat) (ty : String) (x y : Int) (s : Sim)
    (hnd : NodupIds s) (hbd : IdsBounded s)
    (hpw : (posList s).Pairwise (· ≠ ·))
    (hemp : getBlockEntity s x y = none) :
    (posList (createEntity f ty x y s).1).Pairwise (· ≠ ·) := by
  have hfresh : ∀ p ∈ posList s, p ≠ (⟨x, y⟩ : BlockPos) := by
    intro p hp hcon
    unfold posList at hp
    obtain ⟨pe, hpe, hppos⟩ := List.mem_map.1 hp
    unfold getBlockEntity at hemp
    rw [List.find?_eq_none] at hemp
    have := hemp pe hpe
    rw [hppos, hcon] at this
    simp at this
  have hpw1 : (posList { s with em := ⟨s.em.nextId + 1, s.em.entities ++
      [(s.em.nextId, ⟨⟨x, y⟩, registryComp ty, mkBState ty⟩)]⟩ }).Pairwise
      (· ≠ ·) := by
    unfold posList
    simp only [List.map_append]
    rw [List.pairwise_append]
    refine ⟨hpw, by simp, ?_⟩
    intro a ha b hb
    simp only [List.map_cons, List.map_nil, List.mem_singleton] at hb
    rw [hb]
    exact hfresh a ha
  have hnd1 : NodupIds { s with em := ⟨s.em.nextId + 1, s.em.entities ++
      [(s.em.nextId, ⟨⟨x, y⟩, registryComp ty, mkBState ty⟩)]⟩ } := by
    unfold NodupIds idsOf
    simp only [List.map_append]
    rw [List.nodup_append]
    refine ⟨hnd, by simp, ?_⟩
    intro a ha
    simp only [List.map_cons, List.map_nil, List.mem_singleton]
    intro hcon
    obtain ⟨pe, hpe, hpa⟩ := List.mem_map.1 ha
    have := hbd pe hpe
    omega
  unfold createEntity
  cases hreg : registryComp ty with
  | none =>
    simp only [hreg]
    rw [← hreg]
    exact hpw1
  | some c =>
    simp only [hreg]
    have hmem : (s.em.nextId, (⟨⟨x, y⟩, registryComp ty, mkBState ty⟩ : Entity)) ∈
        ({ s with em := ⟨s.em.nextId + 1, s.em.entities ++
          [(s.em.nextId, ⟨⟨x, y⟩, registryComp ty, mkBState ty⟩)]⟩ } : Sim).em.entities := by
      simp
    have hsk := skel_onPlacedComp f x y hnd1 hmem (by rw [hreg])
    rw [show (⟨⟨x, y⟩, registryComp ty, mkBState ty⟩ : Entity) =
      ⟨⟨x, y⟩, some c, mkBState ty⟩ from by rw [hreg]] at hsk
    rw [posList_of_skel_eq hsk]
    rw [show (⟨⟨x, y⟩, some c, mkBState ty⟩ : Entity) =
      ⟨⟨x, y⟩, registryComp ty, mkBState ty⟩ from by rw [hreg]]
    exact hpw1

/-- C3 (confirmed): `placeOrInteract`, the placement path behind the spec's
`createBlock`, ignores out-of-bounds clicks entirely; a non-erase click on an
occupied cell never inserts a record — the id column, the id counter and the
position column are unchanged, the click at most interacting with the
existing block (lever toggle, button press) — and every branch preserves the
at-most-one-block-per-cell invariant. -/
theorem C3_createBlock :
    (∀ (f : Nat) (ty : String) (x y : Int) (s : Sim),
      ¬(0 ≤ x ∧ x < (s.width : Int) ∧ 0 ≤ y ∧ y < (s.height : Int)) →
      placeOrInteract f ty x y s = s)
    ∧ (∀ (f : Nat) (ty : String) (x y : Int) (s : Sim),
        NodupIds s → ty ≠ "erase" →
        (getBlockEntity s x y).isSome = true →
        idsOf (placeOrInteract f ty x y s) = idsOf s ∧
        (placeOrInteract f ty x y s).em.nextId = s.em.nextId ∧
        posList (placeOrInteract f ty x y s) = posList s)
    ∧ (∀ (f : Nat) (ty : String) (x y : Int) (s : Sim),
        NodupIds s → IdsBounded s →
        (posList s).Pairwise (· ≠ ·) →
        (posList (placeOrInteract f ty x y s)).Pairwise (· ≠ ·)) := by
  refine ⟨?_, ?_, ?_⟩
  · intro f ty x y s h
    unfold placeOrInteract
    rw [if_pos (by omega)]
  · intro f ty x y s hnd hty hocc
    rcases placeOrInteract_cases f ty x y s with h | ⟨he, -⟩ | ⟨-, hemp, -⟩ |
      ⟨-, -, i, c, h⟩ | ⟨-, -, i, c, h⟩
    · rw [h]
      exact ⟨rfl, rfl, rfl⟩
    · exact absurd he hty
    · rw [hemp] at hocc
      simp at hocc
    · rw [h]
      exact leverToggle_store f s i c x y hnd
    · rw [h]
      exact buttonPress_store f s i c x y hnd
  · intro f ty x y s hnd hbd hpw
    rcases placeOrInteract_cases f ty x y s with h | ⟨-, i, h⟩ | ⟨-, hemp, h⟩ |
      ⟨-, -, i, c, h⟩ | ⟨-, -, i, c, h⟩
    · rw [h]
      exact hpw
    · rw [h]
      have hnd2 : NodupIds (removeEntityById s i) := nodupIds_remove i hnd
      have hsk := skel_notifyNeighbors f (removeEntityById s i) x y hnd2
      rw [posList_of_skel_eq hsk]
      have hsub : List.Sublist (posList (removeEntityById s i)) (posList s) := by
        unfold posList removeEntityById withEntities
        simp only []
        exact (List.filter_sublist s.em.entities).map _
      exact List.Pairwise.sublist hsub hpw
    · rw [h]
      exact createEntity_pairwise f ty x y s hnd hbd hpw hemp
    · rw [h, (leverToggle_store f s i c x y hnd).2.2]
      exact hpw
    · rw [h, (buttonPress_store f s i c x y hnd).2.2]
      exact hpw

/-- Witness for C3 at concrete clicks: an out-of-bounds click is a no-op, a
placement click on a cell occupied by a lever inserts nothing (it toggles the
lever), and a placement on the empty grid keeps positions pairwise
distinct. -/
theorem C3_createBlock_witness :
    placeOrInteract 20 "minecraft:lever" (-1) 0 emptySim = emptySim ∧
    (idsOf (placeOrInteract 20 "minecraft:stone" 0 0
        (createEntity 20 "minecraft:lever" 0 0 emptySim).1) =
      idsOf (createEntity 20 "minecraft:lever" 0 0 emptySim).1 ∧
     (placeOrInteract 20 "minecraft:stone" 0 0
        (createEntity 20 "minecraft:lever" 0 0 emptySim).1).em.nextId =
      (createEntity 20 "minecraft:lever" 0 0 emptySim).1.em.nextId ∧
     posList (placeOrInteract 20 "minecraft:stone" 0 0
        (createEntity 20 "minecraft:lever" 0 0 emptySim).1) =
      posList (createEntity 20 "minecraft:lever" 0 0 emptySim).1) ∧
    (posList (placeOrInteract 20 "minecraft:stone" 2 3 emptySim)).Pairwise
      (· ≠ ·) :=
  ⟨C3_createBlock.1 20 "minecraft:lever" (-1) 0 emptySim (by decide),
   C3_createBlock.2.1 20 "minecraft:stone" 0 0
     (createEntity 20 "minecraft:lever" 0 0 emptySim).1
     (by decide) (by decide) (by decide),
   C3_createBlock.2.2 20 "minecraft:stone" 2 3 emptySim
     (by decide) (by decide) (by decide)⟩

/-! ## Support lemmas for the piston head linkage -/
theorem find?_id_modFirst_ne (gE : Entity → Entity) {i j : Int} (hij : j ≠ i) :
    ∀ l : List (Int × Entity),
      (modFirst (fun pe => pe.1 == j) gE l).find? (fun pe => pe.1 == i) =
        l.find? (fun pe => pe.1 == i) := by
  intro l
  induction l with
  | nil => rfl
  | cons hd t ih =>
    by_cases hj : (hd.1 == j) = true
    · have hi : (hd.1 == i) = false := by
        have h1 : hd.1 = j := by simpa using hj
        simp [h1, hij]
      simp only [modFirst, hj, if_true]
      rw [find?_cons_neg (fun pe => pe.1 == i) (hd.1, gE hd.2) t hi,
        find?_cons_neg (fun pe => pe.1 == i) hd t hi]
    · have hj' : (hd.1 == j) = false := by simpa using hj
      simp only [modFirst, hj', Bool.false_eq_true, if_false]
      by_cases hi : (hd.1 == i) = true
      · rw [find?_cons_pos (fun pe => pe.1 == i) hd _ hi,
          find?_cons_pos (fun pe => pe.1 == i) hd t hi]
      · have hi' : (hd.1 == i) = false := by simpa using hi
        rw [find?_cons_neg (fun pe => pe.1 == i) hd _ hi',
          find?_cons_neg (fun pe => pe.1 == i) hd t hi']
        exact ih

theorem entById_setCompById_ne (s : Sim) {i j : Int} (hij : j ≠ i)
    (g : RComp → RComp) : entById (setCompById s j g) i = entById s i := by
  unfold entById setCompById withEntities
  simp only []
  rw [find?_id_modFirst_ne _ hij]

theorem entById_setBSById_ne (s : Sim) {i j : Int} (hij : j ≠ i)
    (g : BState → BState) : entById (setBSById s j g) i = entById s i := by
  unfold entById setBSById withEntities
  simp only []
  rw [find?_id_modFirst_ne _ hij]

theorem entById_setPosById_ne (s : Sim) {i j : Int} (hij : j ≠ i)
    (nx ny : Int) : entById (setPosById s j nx ny) i = entById s i := by
  unfold entById setPosById withEntities
  simp only []
  rw [find?_id_modFirst_ne _ hij]

theorem find?_id_not_mem {l : List (Int × Entity)} {i : Int}
    (h : i ∉ l.map Prod.fst) : l.find? (fun pe => pe.1 == i) = none := by
  rw [List.find?_eq_none]
  intro a ha
  simp only [beq_iff_eq]
  intro hcon
  exact h (by rw [← hcon]; exact List.mem_map_of_mem Prod.fst ha)

theorem find?_append_some {α : Type} {l l' : List α} {p : α → Bool} {a : α}
    (h : l.find? p = some a) : (l ++ l').find? p = some a := by
  rw [List.find?_append, h]
  rfl

theorem find?_append_none {α : Type} {l l' : List α} {p : α → Bool}
    (h : l.find? p = none) : (l ++ l').find? p = l'.find? p := by
  rw [List.find?_append, h]
  cases l'.find? p <;> rfl

theorem idsOf_remove_mem {s : Sim} {j a : Int}
    (h : a ∈ idsOf (removeEntityById s j)) : a ∈ idsOf s ∧ a ≠ j := by
  unfold idsOf removeEntityById withEntities at *
  simp only [] at h
  obtain ⟨pe, hpe, hpa⟩ := List.mem_map.1 h
  have hmem := List.of_mem_filter hpe
  have hin := List.mem_of_mem_filter hpe
  refine ⟨by rw [← hpa]; exact List.mem_map_of_mem Prod.fst hin, ?_⟩
  rw [← hpa]
  simpa using hmem

theorem collectStack_mem {s : Sim} {vx vy : Int} :
    ∀ (n : Nat) (cx cy : Int) (m : Int × Int × Int),
      m ∈ collectStack s vx vy n cx cy →
      ∃ k : Nat, m.2.1 = cx + vx * (k : Int) ∧ m.2.2 = cy + vy * (k : Int) ∧
        ∃ em, getBlockEntity s m.2.1 m.2.2 = some (m.1, em) := by
  intro n
  induction n with
  | zero => intro cx cy m hm; cases hm
  | succ n ih =>
    intro cx cy m hm
    rw [collectStack] at hm
    cases hb : getBlockEntity s cx cy with
    | none => rw [hb] at hm; cases hm
    | some pe =>
      obtain ⟨bi, be⟩ := pe
      rw [hb] at hm
      simp only [] at hm
      rcases List.mem_cons.1 hm with hm' | hm'
      · refine ⟨0, ?_, ?_, ⟨be, ?_⟩⟩ <;> rw [hm'] <;> simp [hb]
      · obtain ⟨k, hk1, hk2, hm3⟩ := ih (cx + vx) (cy + vy) m hm'
        refine ⟨k + 1, ?_, ?_, hm3⟩
        · rw [hk1]; push_cast; ring
        · rw [hk2]; push_cast; ring

theorem dirVec_ne_zero : ∀ r : Nat, r < 4 → ¬((dirVec r).1 = 0 ∧ (dirVec r).2 = 0) := by
  decide

theorem doPushMoves_track (f : Nat) (vx vy : Int) (i : Int) :
    ∀ (st : List (Int × Int × Int)) (s : Sim), NodupIds s →
      (∀ m ∈ st, m.1 ≠ i) →
      (entById (doPushMoves f vx vy s st) i).map eraseEnt =
        (entById s i).map eraseEnt ∧
      idsOf (doPushMoves f vx vy s st) = idsOf s ∧
      (doPushMoves f vx vy s st).em.nextId = s.em.nextId := by
  intro st
  induction st with
  | nil => intro s hnd _; exact ⟨rfl, rfl, rfl⟩
  | cons m t ih =>
    intro s hnd hne
    obtain ⟨mi, mx, my⟩ := m
    have hmi : mi ≠ i := hne (mi, mx, my) (by simp)
    rw [doPushMoves]
    have h1 : entById (setPosById s mi (mx + vx) (my + vy)) i = entById s i :=
      entById_setPosById_ne s hmi (mx + vx) (my + vy)
    have hids1 : idsOf (setPosById s mi (mx + vx) (my + vy)) = idsOf s :=
      idsOf_setPosById s mi (mx + vx) (my + vy)
    have hnd1 : NodupIds (setPosById s mi (mx + vx) (my + vy)) := by
      unfold NodupIds
      rw [hids1]
      exact hnd
    have hsk2 := skel_notifyNeighbors f (setPosById s mi (mx + vx) (my + vy))
      mx my hnd1
    have hnd2 : NodupIds _ := nodupIds_of_skel_eq hsk2 hnd1
    have hsk3 := skel_notifyNeighbors f _ (mx + vx) (my + vy) hnd2
    have hnd3 : NodupIds _ := nodupIds_of_skel_eq hsk3 hnd2
    obtain ⟨ha, hb, hc⟩ := ih _ hnd3 (fun m' hm' => hne m' (by simp [hm']))
    refine ⟨?_, ?_, ?_⟩
    · rw [ha, entById_erase_of_skel_eq hsk3, entById_erase_of_skel_eq hsk2, h1]
    · rw [hb, idsOf_of_skel_eq hsk3, idsOf_of_skel_eq hsk2, hids1]
    · rw [hc, skel_eq_nextId hsk3, skel_eq_nextId hsk2]
      rfl

/-- The head entity `createEntity('minecraft:piston_head', x, y)` appends:
its `onPlaced` inherits the base no-op. -/
theorem createEntity_pistonHead (f : Nat) (x y : Int) (s : Sim) :
    createEntity f "minecraft:piston_head" x y s =
      ({ s with em := ⟨s.em.nextId + 1, s.em.entities ++
        [(s.em.nextId, ⟨⟨x, y⟩, some (baseComp CKind.pistonHead),
          mkBState "minecraft:piston_head"⟩)]⟩ }, s.em.nextId) := rfl

theorem pistonView_of_erase {c' c : RComp} (h : eraseComp c' = eraseComp c) :
    pistonView c' = pistonView c := by
  unfold pistonView
  rw [erase_eq_extended h, erase_eq_headId h]

theorem headView_of_erase {e' e : Entity} (h : eraseEnt e' = eraseEnt e) :
    headView e' = headView e := by
  unfold headView
  rw [eraseEnt_eq_pos h, eraseEnt_eq_bs_rotation h]
  have h2 := congrArg Entity.redstone h
  rw [eraseEnt_redstone, eraseEnt_redstone] at h2
  have hme : ∀ o : Option RComp, (o.map eraseComp).map
      (fun cc => (cc.kind, cc.sourcePistonId)) =
        o.map (fun cc => (cc.kind, cc.sourcePistonId)) := by
    intro o
    cases o with
    | none => rfl
    | some a => rfl
  rw [← hme, h2, hme]

theorem mem_idsOf_of_entById {s : Sim} {i : Int} {e : Entity}
    (h : entById s i = some e) : i ∈ idsOf s := by
  unfold entById at h
  cases hf : s.em.entities.find? (fun pe => pe.1 == i) with
  | none => rw [hf] at h; cases h
  | some p =>
    have hp := List.find?_some hf
    have hm := List.mem_of_find?_eq_some hf
    have hp1 : p.1 = i := by simpa using hp
    unfold idsOf
    rw [← hp1]
    exact List.mem_map_of_mem Prod.fst hm

theorem idsBounded_lt {s : Sim} (hb : IdsBounded s) {a : Int}
    (ha : a ∈ idsOf s) : a < s.em.nextId := by
  unfold idsOf at ha
  obtain ⟨pe, hpe, hpa⟩ := List.mem_map.1 ha
  rw [← hpa]
  exact hb pe hpe

theorem entPR_updateBlockStateAt (s : Sim) (x y : Int) (g : BState → BState)
    (i : Int) :
    (entById (updateBlockStateAt s x y g) i).map (fun e => (e.pos, e.redstone)) =
      (entById s i).map (fun e => (e.pos, e.redstone)) := by
  unfold entById updateBlockStateAt withEntities
  simp only []
  have h := find?_id_modFirst_proj (fun e => (e.pos, e.redstone))
    (fun pe => pe.2.pos.x == x && pe.2.pos.y == y)
    (fun e => { e with bs := g e.bs }) i (fun e => rfl) s.em.entities
  cases h1 : (modFirst (fun pe => pe.2.pos.x == x && pe.2.pos.y == y)
      (fun e => { e with bs := g e.bs }) s.em.entities).find?
      (fun pe => pe.1 == i) <;>
    cases h2 : s.em.entities.find? (fun pe => pe.1 == i) <;>
    rw [h1, h2] at h <;> simp_all

theorem compById_setBSById (s : Sim) (j : Int) (g : BState → BState) (i : Int) :
    compById (setBSById s j g) i = compById s i := by
  unfold compById entById setBSById withEntities
  simp only []
  have h := find?_id_modFirst_proj Entity.redstone (fun pe => pe.1 == j)
    (fun e => { e with bs := g e.bs }) i (fun e => rfl) s.em.entities
  cases h1 : (modFirst (fun pe => pe.1 == j)
      (fun e => { e with bs := g e.bs }) s.em.entities).find?
      (fun pe => pe.1 == i) <;>
    cases h2 : s.em.entities.find? (fun pe => pe.1 == i) <;>
    rw [h1, h2] at h <;> simp_all

theorem compById_remove_ne {s : Sim} {i j : Int} (hij : i ≠ j) :
    compById (removeEntityById s j) i = compById s i := by
  unfold compById
  rw [entById_filter_ne hij]

theorem stack_ids_ne {s : Sim} (hnd : NodupIds s) {x y : Int} {i : Int}
    {e : Entity} (hpos : getBlockEntity s x y = some (i, e)) {vx vy : Int}
    (hv : ¬(vx = 0 ∧ vy = 0)) (n : Nat) :
    ∀ m ∈ collectStack s vx vy n (x + vx) (y + vy), m.1 ≠ i := by
  intro m hm hcon
  obtain ⟨k, hk1, hk2, em, hem⟩ := collectStack_mem n (x + vx) (y + vy) m hm
  rw [hcon] at hem
  have hf1 := find?_pos_to_id hnd hpos
  have hf2 := find?_pos_to_id hnd hem
  rw [hf1] at hf2
  simp at hf2
  have hp1 : em.pos = ⟨m.2.1, m.2.2⟩ := pos_of_getBlockEntity hem
  have hp2 : e.pos = ⟨x, y⟩ := pos_of_getBlockEntity hpos
  rw [← hf2] at hp1
  rw [hp2] at hp1
  have hbx : x = m.2.1 := congrArg BlockPos.x hp1
  have hby : y = m.2.2 := congrArg BlockPos.y hp1
  rw [hk1] at hbx
  rw [hk2] at hby
  apply hv
  constructor
  · have h3 : vx * ((k : Int) + 1) = 0 := by linear_combination -hbx
    rcases mul_eq_zero.1 h3 with h | h
    · exact h
    · omega
  · have h3 : vy * ((k : Int) + 1) = 0 := by linear_combination -hby
    rcases mul_eq_zero.1 h3 with h | h
    · exact h
    · omega

theorem doPush_track (f : Nat) {s : Sim} {x y : Int} {i : Int} {e : Entity}
    (hnd : NodupIds s) (hpos : getBlockEntity s x y = some (i, e))
    {dir : Nat} (hdir : dir < 4) :
    (entById (doPush f s x y dir) i).map eraseEnt =
      (entById s i).map eraseEnt ∧
    idsOf (doPush f s x y dir) = idsOf s ∧
    (doPush f s x y dir).em.nextId = s.em.nextId := by
  unfold doPush
  simp only []
  exact doPushMoves_track f (dirVec dir).1 (dirVec dir).2 i _ s hnd
    (fun m hm => stack_ids_ne hnd hpos (dirVec_ne_zero dir hdir)
      (s.em.entities.length + 1) m (List.mem_reverse.1 hm))

theorem linkFacts_of_skel_eq {T2 T : Sim} (hsk : skel T2 = skel T)
    {hId iId : Int} {cR : RComp} (hE : entById T hId = none)
    (hC : ∃ c2, compById T iId = some c2 ∧ eraseComp c2 = eraseComp cR) :
    entById T2 hId = none ∧
      ∃ c2, compById T2 iId = some c2 ∧ eraseComp c2 = eraseComp cR := by
  constructor
  · have ht := entById_erase_of_skel_eq hsk hId
    rw [hE] at ht
    cases h2 : entById T2 hId with
    | none => rfl
    | some e2 => rw [h2] at ht; simp at ht
  · obtain ⟨c2, hc2, he2⟩ := hC
    obtain ⟨c3, hc3, he3⟩ := compById_of_skel_eq hsk hc2
    exact ⟨c3, hc3, he3.trans he2⟩

theorem retract_conclude {T : Sim} {hId iId : Int} {cR : RComp}
    (hE : entById T hId = none)
    (hC : ∃ c2, compById T iId = some c2 ∧ eraseComp c2 = eraseComp cR) :
    entById T hId = none ∧
      (compById T iId).map pistonView = some (pistonView cR) := by
  refine ⟨hE, ?_⟩
  obtain ⟨c2, hc2, he2⟩ := hC
  rw [hc2]
  show some (pistonView c2) = some (pistonView cR)
  rw [pistonView_of_erase he2]

theorem extend_tail (f : Nat) (s4 : Sim) (i : Int) (st : Bool) (rot : Nat)
    (hx hy : Int) {e3 : Entity} {cExt : RComp}
    (ha : entById s4 i = some e3) (he3 : e3.redstone = some cExt)
    (hb : ∀ a ∈ idsOf s4, a ≠ s4.em.nextId) (hc : NodupIds s4) :
    (entById (notifyNeighbors f (setCompById (setBSById (setCompById
          (createEntity f "minecraft:piston_head" hx hy s4).1
          (createEntity f "minecraft:piston_head" hx hy s4).2
          (fun cc => { cc with sourcePistonId := i, isSticky := st }))
          (createEntity f "minecraft:piston_head" hx hy s4).2
          (fun b => { b with rotation := rot, sticky := st }))
          i (fun cc => { cc with headId :=
            (createEntity f "minecraft:piston_head" hx hy s4).2 }))
        hx hy) s4.em.nextId).map headView =
      some (⟨hx, hy⟩, rot, some (CKind.pistonHead, i)) ∧
    (compById (notifyNeighbors f (setCompById (setBSById (setCompById
          (createEntity f "minecraft:piston_head" hx hy s4).1
          (createEntity f "minecraft:piston_head" hx hy s4).2
          (fun cc => { cc with sourcePistonId := i, isSticky := st }))
          (createEntity f "minecraft:piston_head" hx hy s4).2
          (fun b => { b with rotation := rot, sticky := st }))
          i (fun cc => { cc with headId :=
            (createEntity f "minecraft:piston_head" hx hy s4).2 }))
        hx hy) i).map pistonView =
      some (cExt.extended, s4.em.nextId) := by
  have hne : i ≠ s4.em.nextId := hb i (mem_idsOf_of_entById ha)
  have h2 : (createEntity f "minecraft:piston_head" hx hy s4).2 =
      s4.em.nextId := rfl
  have hents : (createEntity f "minecraft:piston_head" hx hy s4).1.em.entities =
      s4.em.entities ++ [(s4.em.nextId,
        ⟨⟨hx, hy⟩, some (baseComp CKind.pistonHead),
          mkBState "minecraft:piston_head"⟩)] := rfl
  rw [h2]
  obtain ⟨p3, hp3, hp3e⟩ : ∃ p : Int × Entity,
      s4.em.entities.find? (fun pe => pe.1 == i) = some p ∧ p.2 = e3 := by
    unfold entById at ha
    cases hf : s4.em.entities.find? (fun pe => pe.1 == i) with
    | none => rw [hf] at ha; cases ha
    | some p =>
      rw [hf] at ha
      exact ⟨p, rfl, by simpa using ha⟩
  have h5i : entById (createEntity f "minecraft:piston_head" hx hy s4).1 i =
      some e3 := by
    unfold entById
    rw [hents, find?_append_some hp3]
    simp [hp3e]
  have h5n : entById (createEntity f "minecraft:piston_head" hx hy s4).1
      s4.em.nextId = some ⟨⟨hx, hy⟩, some (baseComp CKind.pistonHead),
        mkBState "minecraft:piston_head"⟩ := by
    unfold entById
    rw [hents]
    have hnone : s4.em.entities.find?
        (fun pe => pe.1 == s4.em.nextId) = none :=
      find?_id_not_mem (fun hmem => hb _ hmem rfl)
    rw [find?_append_none hnone]
    simp
  have hids5 : idsOf (createEntity f "minecraft:piston_head" hx hy s4).1 =
      idsOf s4 ++ [s4.em.nextId] := by
    unfold idsOf
    rw [hents, List.map_append]
    rfl
  have hnd5 : NodupIds (createEntity f "minecraft:piston_head" hx hy s4).1 := by
    unfold NodupIds
    rw [hids5, List.nodup_append]
    refine ⟨hc, List.nodup_singleton _, ?_⟩
    intro a ha1 ha2
    rw [List.mem_singleton] at ha2
    exact hb a ha1 ha2
  set s6 : Sim := setCompById (createEntity f "minecraft:piston_head" hx hy s4).1
    s4.em.nextId (fun cc => { cc with sourcePistonId := i, isSticky := st })
    with hs6
  set s7 : Sim := setBSById s6 s4.em.nextId
    (fun b => { b with rotation := rot, sticky := st }) with hs7
  set s8 : Sim := setCompById s7 i
    (fun cc => { cc with headId := s4.em.nextId }) with hs8
  have h6n : entById s6 s4.em.nextId = some ⟨⟨hx, hy⟩,
      some { baseComp CKind.pistonHead with sourcePistonId := i, isSticky := st },
      mkBState "minecraft:piston_head"⟩ := by
    rw [hs6, entById_setCompById, h5n]
    rfl
  have h7n : entById s7 s4.em.nextId = some ⟨⟨hx, hy⟩,
      some { baseComp CKind.pistonHead with sourcePistonId := i, isSticky := st },
      { mkBState "minecraft:piston_head" with rotation := rot, sticky := st }⟩ := by
    rw [hs7, entById_setBSById, h6n]
    rfl
  have h8n : entById s8 s4.em.nextId = some ⟨⟨hx, hy⟩,
      some { baseComp CKind.pistonHead with sourcePistonId := i, isSticky := st },
      { mkBState "minecraft:piston_head" with rotation := rot, sticky := st }⟩ := by
    rw [hs8, entById_setCompById_ne _ hne _]
    exact h7n
  have h7i : entById s7 i = some e3 := by
    rw [hs7, entById_setBSById_ne _ (Ne.symm hne) _, hs6,
      entById_setCompById_ne _ (Ne.symm hne) _]
    exact h5i
  have h8i : compById s8 i = some { cExt with headId := s4.em.nextId } := by
    have hcomp7 : compById s7 i = some cExt := by
      unfold compById
      rw [h7i]
      exact he3
    rw [hs8, compById_setCompById, hcomp7]
    rfl
  have hnd8 : NodupIds s8 := by
    unfold NodupIds
    rw [hs8, idsOf_setCompById, hs7, idsOf_setBSById, hs6, idsOf_setCompById]
    exact hnd5
  have hsk := skel_notifyNeighbors f s8 hx hy hnd8
  constructor
  · have ht := entById_erase_of_skel_eq hsk s4.em.nextId
    rw [h8n] at ht
    cases hre : entById (notifyNeighbors f s8 hx hy) s4.em.nextId with
    | none => rw [hre] at ht; simp at ht
    | some e9 =>
      rw [hre] at ht
      have h9 : eraseEnt e9 = eraseEnt ⟨⟨hx, hy⟩,
          some { baseComp CKind.pistonHead with
            sourcePistonId := i, isSticky := st },
          { mkBState "minecraft:piston_head" with
            rotation := rot, sticky := st }⟩ := by
        simpa using ht
      show some (headView e9) = _
      rw [headView_of_erase h9]
      rfl
  · obtain ⟨c9, hc9, he9⟩ := compById_of_skel_eq hsk h8i
    rw [hc9]
    show some (pistonView c9) = _
    rw [pistonView_of_erase he9]
    rfl

/-! ## Claim C5: the piston head linkage -/
/-- C5 (amended): a successful piston extension establishes the linkage — the
freshly allocated entity is a piston head at the cell in front of the piston
carrying `sourcePistonId` of the piston, and the piston component afterwards
has `extended = true` and `headId` of the head — and a retraction removes the
head entity and clears `extended` and `headId` again.  The original claim's
biconditional is not preserved by every operation: deleting the piston entity
orphans its head (see the counterexample). -/
theorem C5_head_linkage :
    (∀ (f : Nat) (s : Sim) (x y : Int) (i : Int) (e : Entity) (c : RComp),
      NodupIds s → IdsBounded s →
      getBlockEntity s x y = some (i, e) → e.redstone = some c →
      c.kind = CKind.piston → c.extended = false → e.bs.rotation < 4 →
      canPush s x y (rotOf s x y) = true →
      (entById (pistonExtend f s i c x y) s.em.nextId).map headView =
        some (⟨x + (dirVec e.bs.rotation).1, y + (dirVec e.bs.rotation).2⟩,
          e.bs.rotation, some (CKind.pistonHead, i)) ∧
      (compById (pistonExtend f s i c x y) i).map pistonView =
        some (true, s.em.nextId)) ∧
    (∀ (f : Nat) (s : Sim) (x y : Int) (i : Int) (e : Entity) (c : RComp),
      NodupIds s →
      getBlockEntity s x y = some (i, e) → e.redstone = some c →
      c.kind = CKind.piston → c.extended = true →
      c.headId ≠ -1 → c.headId ≠ i →
      entById (pistonRetract f s i c x y) c.headId = none ∧
      (compById (pistonRetract f s i c x y) i).map pistonView =
        some (false, -1)) := by
  constructor
  · intro f s x y i e c hnd hbnd hpos hr hkind hext hrot hcan
    have hrot2 : rotOf s x y = e.bs.rotation := rotOf_eq hpos
    rw [← hrot2]
    have hdir4 : rotOf s x y < 4 := by rw [hrot2]; exact hrot
    unfold pistonExtend
    rw [hext]
    simp only [Bool.false_eq_true, if_false]
    rw [if_pos hcan]
    set s1 : Sim := doPush f s x y (rotOf s x y) with hs1
    set s2 : Sim := setCompById s1 i (fun cc => { cc with extended := true })
      with hs2
    set s3 : Sim := updateBlockStateAt s2 x y
      (fun b => { b with extended := true }) with hs3
    have hei : entById s i = some e := by
      unfold entById
      rw [find?_pos_to_id hnd hpos]
      rfl
    obtain ⟨htk, hids1, hnext1⟩ := doPush_track f hnd hpos hdir4
    rw [← hs1] at htk hids1 hnext1
    have htk2 : (entById s1 i).map eraseEnt = some (eraseEnt e) := by
      rw [htk, hei]
      rfl
    obtain ⟨e1, he1, he1e⟩ : ∃ e1, entById s1 i = some e1 ∧
        eraseEnt e1 = eraseEnt e := by
      cases hq : entById s1 i with
      | none => rw [hq] at htk2; simp at htk2
      | some e1 =>
        rw [hq] at htk2
        exact ⟨e1, rfl, by simpa using htk2⟩
    obtain ⟨c1, hc1, hc1e⟩ := eraseEnt_eq_comp he1e hr
    have hp1 : e1.pos = ⟨x, y⟩ := by
      rw [eraseEnt_eq_pos he1e]
      exact pos_of_getBlockEntity hpos
    have hPR3 : (entById s3 i).map (fun e2 => (e2.pos, e2.redstone)) =
        some (⟨x, y⟩, some { c1 with extended := true }) := by
      rw [hs3, entPR_updateBlockStateAt, hs2, entById_setCompById, he1]
      simp [hc1, hp1]
    obtain ⟨e3, h3i, h3pr⟩ : ∃ e3, entById s3 i = some e3 ∧
        (e3.pos, e3.redstone) = (⟨x, y⟩, some { c1 with extended := true }) := by
      cases hq : entById s3 i with
      | none => rw [hq] at hPR3; simp at hPR3
      | some e3 =>
        rw [hq] at hPR3
        exact ⟨e3, rfl, by simpa using hPR3⟩
    have h3pos : e3.pos = ⟨x, y⟩ := congrArg Prod.fst h3pr
    have h3red : e3.redstone = some { c1 with extended := true } :=
      congrArg Prod.snd h3pr
    have hids3 : idsOf s3 = idsOf s := by
      rw [hs3, idsOf_updateBlockStateAt, hs2, idsOf_setCompById]
      exact hids1
    have hnd3 : NodupIds s3 := by
      unfold NodupIds
      rw [hids3]
      exact hnd
    have hnext3 : s3.em.nextId = s.em.nextId := hnext1
    cases hocc : getBlockEntity s3 (x + (dirVec (rotOf s x y)).1)
        (y + (dirVec (rotOf s x y)).2) with
    | none =>
      have hb4 : ∀ a ∈ idsOf s3, a ≠ s3.em.nextId := by
        intro a ha1
        rw [hids3] at ha1
        rw [hnext3]
        exact ne_of_lt (idsBounded_lt hbnd ha1)
      have happ := extend_tail f s3 i c.isSticky (rotOf s x y)
        (x + (dirVec (rotOf s x y)).1) (y + (dirVec (rotOf s x y)).2)
        h3i h3red hb4 hnd3
      rw [hnext3] at happ
      exact happ
    | some pe =>
      obtain ⟨i2, e2o⟩ := pe
      have hne2 : i2 ≠ i := by
        intro hcon
        have hf2 := find?_pos_to_id hnd3 hocc
        have h32 : entById s3 i2 = some e2o := by
          unfold entById
          rw [hf2]
          rfl
        rw [hcon] at h32
        have he23 : e3 = e2o := by
          have h33 := h3i.symm.trans h32
          simpa using h33
        have hpe2 : e2o.pos = ⟨x + (dirVec (rotOf s x y)).1,
            y + (dirVec (rotOf s x y)).2⟩ := pos_of_getBlockEntity hocc
        rw [← he23] at hpe2
        rw [h3pos] at hpe2
        have hbx : x = x + (dirVec (rotOf s x y)).1 := congrArg BlockPos.x hpe2
        have hby : y = y + (dirVec (rotOf s x y)).2 := congrArg BlockPos.y hpe2
        exact dirVec_ne_zero (rotOf s x y) hdir4 ⟨by omega, by omega⟩
      have h4i : entById (removeEntityById s3 i2) i = some e3 := by
        rw [entById_filter_ne (Ne.symm hne2)]
        exact h3i
      have hnext4 : (removeEntityById s3 i2).em.nextId = s.em.nextId := hnext3
      have hb4 : ∀ a ∈ idsOf (removeEntityById s3 i2),
          a ≠ (removeEntityById s3 i2).em.nextId := by
        intro a ha1
        obtain ⟨ha2, -⟩ := idsOf_remove_mem ha1
        rw [hids3] at ha2
        rw [hnext4]
        exact ne_of_lt (idsBounded_lt hbnd ha2)
      have hnd4 : NodupIds (removeEntityById s3 i2) := nodupIds_remove i2 hnd3
      have happ := extend_tail f (removeEntityById s3 i2) i c.isSticky
        (rotOf s x y) (x + (dirVec (rotOf s x y)).1)
        (y + (dirVec (rotOf s x y)).2) h4i h3red hb4 hnd4
      rw [hnext4] at happ
      exact happ
  · intro f s x y i e c hnd hpos hr hkind hextT hhead hnei
    have hcomp : compById s i = some c := compById_of_pos hnd hpos hr
    unfold pistonRetract
    rw [if_pos hextT]
    simp only []
    rw [if_neg hhead]
    set sB : Sim := setCompById (removeEntityById (updateBlockStateAt
      (setCompById s i (fun cc => { cc with extended := false })) x y
      (fun b => { b with extended := false })) c.headId) i
      (fun cc => { cc with headId := -1 }) with hsB
    set s3R : Sim := notifyNeighbors f sB (x + (dirVec (rotOf s x y)).1)
      (y + (dirVec (rotOf s x y)).2) with hs3R
    have hcompB : compById sB i =
        some { c with extended := false, headId := -1 } := by
      rw [hsB, compById_setCompById, compById_remove_ne (Ne.symm hnei),
        compById_updateBlockStateAt, compById_setCompById, hcomp]
      rfl
    have hentB : entById sB c.headId = none := by
      rw [hsB, entById_setCompById_ne _ (Ne.symm hnei) _]
      exact entById_remove_self _ c.headId
    have hndB : NodupIds sB := by
      unfold NodupIds
      rw [hsB, idsOf_setCompById]
      have hnd2 : NodupIds (updateBlockStateAt (setCompById s i
          (fun cc => { cc with extended := false })) x y
          (fun b => { b with extended := false })) := by
        unfold NodupIds
        rw [idsOf_updateBlockStateAt, idsOf_setCompById]
        exact hnd
      exact nodupIds_remove c.headId hnd2
    have hskB : skel s3R = skel sB := by
      rw [hs3R]
      exact skel_notifyNeighbors f sB _ _ hndB
    obtain ⟨hE3, hC3⟩ := linkFacts_of_skel_eq hskB hentB
      ⟨{ c with extended := false, headId := -1 }, hcompB, rfl⟩
    have hnd3R : NodupIds s3R := nodupIds_of_skel_eq hskB hndB
    cases hst : c.isSticky with
    | false =>
      simp only [Bool.false_eq_true, if_false]
      exact retract_conclude hE3 hC3
    | true =>
      rw [if_pos rfl]
      unfold doPull
      simp only []
      split
      · exact retract_conclude hE3 hC3
      · rename_i bi be hocc
        by_cases him : isImmovableBS be.bs = true
        · rw [if_pos him]
          exact retract_conclude hE3 hC3
        · rw [if_neg him]
          have hbi : bi ≠ c.headId := by
            intro hcon
            have hf2 := find?_pos_to_id hnd3R hocc
            have h3b : entById s3R bi = some be := by
              unfold entById
              rw [hf2]
              rfl
            rw [hcon] at h3b
            rw [hE3] at h3b
            cases h3b
          have hESP : entById (setPosById s3R bi
              (x + (dirVec (rotOf s x y)).1)
              (y + (dirVec (rotOf s x y)).2)) c.headId = none := by
            rw [entById_setPosById_ne _ hbi _ _]
            exact hE3
          have hCSP : ∃ c2, compById (setPosById s3R bi
              (x + (dirVec (rotOf s x y)).1)
              (y + (dirVec (rotOf s x y)).2)) i = some c2 ∧
              eraseComp c2 =
                eraseComp { c with extended := false, headId := -1 } := by
            obtain ⟨c2, hc2, he2⟩ := hC3
            refine ⟨c2, ?_, he2⟩
            rw [compById_setPosById]
            exact hc2
          have hndSP : NodupIds (setPosById s3R bi
              (x + (dirVec (rotOf s x y)).1)
              (y + (dirVec (rotOf s x y)).2)) := by
            unfold NodupIds
            rw [idsOf_setPosById]
            exact hnd3R
          have hsk4 := skel_notifyNeighbors f (setPosById s3R bi
            (x + (dirVec (rotOf s x y)).1) (y + (dirVec (rotOf s x y)).2))
            (x + (dirVec (rotOf s x y)).1 * 2)
            (y + (dirVec (rotOf s x y)).2 * 2) hndSP
          obtain ⟨hE4, hC4⟩ := linkFacts_of_skel_eq hsk4 hESP hCSP
          have hnd4b := nodupIds_of_skel_eq hsk4 hndSP
          have hsk5 := skel_notifyNeighbors f (notifyNeighbors f
            (setPosById s3R bi (x + (dirVec (rotOf s x y)).1)
              (y + (dirVec (rotOf s x y)).2))
            (x + (dirVec (rotOf s x y)).1 * 2)
            (y + (dirVec (rotOf s x y)).2 * 2))
            (x + (dirVec (rotOf s x y)).1) (y + (dirVec (rotOf s x y)).2) hnd4b
          obtain ⟨hE5, hC5f⟩ := linkFacts_of_skel_eq hsk5 hE4 hC4
          exact retract_conclude hE5 hC5f

/-- Counterexample to C5 as stated: in the trace `sC5` the piston (id 2) that
created head id 3 has been deleted; a piston head whose `sourcePistonId` is 2
still exists, while no entity with id 2 exists, so the claimed biconditional
fails after a removal operation. -/
theorem C5_counterexample :
    (compById sC5 3).map (fun cc => (cc.kind, cc.sourcePistonId)) =
      some (CKind.pistonHead, 2) ∧
    entById sC5 2 = none := by
  decide

/-- Witness for C5 at concrete states: extending a free east-facing piston
creates and links head id 2, and retracting the extended piston `sC5w`
deletes head id 3 and clears the linkage. -/
theorem C5_head_linkage_witness :
    ((entById (pistonExtend 20 (simRow 0) 1 (baseComp CKind.piston) 0 0)
        (simRow 0).em.nextId).map headView =
      some (⟨0 + (dirVec (pistonEntR 0 0 1).bs.rotation).1,
        0 + (dirVec (pistonEntR 0 0 1).bs.rotation).2⟩,
        (pistonEntR 0 0 1).bs.rotation, some (CKind.pistonHead, 1)) ∧
     (compById (pistonExtend 20 (simRow 0) 1 (baseComp CKind.piston) 0 0)
        1).map pistonView = some (true, (simRow 0).em.nextId)) ∧
    (entById (pistonRetract 20 sC5w 2 cC5w 0 0) cC5w.headId = none ∧
     (compById (pistonRetract 20 sC5w 2 cC5w 0 0) 2).map pistonView =
        some (false, -1)) :=
  ⟨C5_head_linkage.1 20 (simRow 0) 0 0 1 (pistonEntR 0 0 1)
      (baseComp CKind.piston) (by decide) (by decide) (by decide) (by decide)
      (by decide) (by decide) (by decide) (by decide),
   C5_head_linkage.2 20 sC5w 0 0 2 eC5w cC5w (by decide) (by decide)
      (by decide) (by decide) (by decide) (by decide) (by decide)⟩

end Redstone

